import Mathlib

/-!
Verification of the calcos time-tag calibration pipeline (`lib/timetag.py`).

The Python source operates on numpy arrays of floating-point values; here
the numeric values are modelled by `ℚ` (exact arithmetic), arrays by
`List`, and the per-stage in-place column mutation by explicit state
passing.  Table lookups that the source performs through `cosutil.getTable`
are modelled by passing the relevant table rows as explicit arguments.
-/

namespace Calcos

/-! ## GTI / bad-time interval engine (`recomputeGTI`, timetag.py lines 471-501)

A good-time or bad-time interval `[start, stop)` is a pair of rationals.
-/

/-- The body of the inner loop of `recomputeGTI`: subtract one bad interval
`bad = (bad_start, bad_stop)` from one good interval `g = (start, stop)`.
A non-overlapping good interval passes through unchanged; an overlapping one
leaves the piece `[start, bad_start)` when `bad_start > start` and the piece
`[bad_stop, stop)` when `bad_stop < stop`. -/
def gtiPieces (bad : ℚ × ℚ) (g : ℚ × ℚ) : List (ℚ × ℚ) :=
  if bad.1 ≥ g.2 ∨ bad.2 ≤ g.1 then [g]
  else
    (if bad.1 > g.1 then [(g.1, bad.1)] else []) ++
    (if bad.2 < g.2 then [(bad.2, g.2)] else [])

/-- One pass of the outer loop of `recomputeGTI`: subtract a single bad
interval from every good interval, keeping the surviving pieces in order
(`new_gti` in the source). -/
def recomputeGTIbad (gti : List (ℚ × ℚ)) (bad : ℚ × ℚ) : List (ℚ × ℚ) :=
  gti.flatMap (gtiPieces bad)

/-- `recomputeGTI`: subtract every bad interval of `badt`, in sequence, from
the good-time-interval list `gti`.  The source returns `gti` unchanged when
`badt` is empty. -/
def recomputeGTI (gti : List (ℚ × ℚ)) (badt : List (ℚ × ℚ)) : List (ℚ × ℚ) :=
  if badt = [] then gti else badt.foldl recomputeGTIbad gti

/-- A good-time-interval list is ordered and pairwise disjoint: every
interval ends no later than any later interval starts. -/
def GTIordered (l : List (ℚ × ℚ)) : Prop :=
  l.Pairwise (fun p q => p.2 ≤ q.1)

/-- Every interval of the list is nonempty (`start < stop`). -/
def GTIvalid (l : List (ℚ × ℚ)) : Prop :=
  ∀ p ∈ l, p.1 < p.2

instance (l : List (ℚ × ℚ)) : Decidable (GTIordered l) := by
  unfold GTIordered; infer_instance

instance (l : List (ℚ × ℚ)) : Decidable (GTIvalid l) := by
  unfold GTIvalid; infer_instance

/-- The subset of the real line covered by one interval `[start, stop)`. -/
def ivalSet (p : ℚ × ℚ) : Set ℝ :=
  Set.Ico (p.1 : ℝ) (p.2 : ℝ)

/-- The subset of the real line covered by an interval list. -/
def gtiSet (l : List (ℚ × ℚ)) : Set ℝ :=
  ⋃ p ∈ l, ivalSet p

/-- Total duration of an interval list, as computed by `recomputeExptime`:
the sum of `stop - start` over the intervals. -/
def duration (l : List (ℚ × ℚ)) : ℚ :=
  (l.map (fun p => p.2 - p.1)).sum

theorem gtiSet_nil : gtiSet [] = ∅ := by
  simp [gtiSet]

theorem gtiSet_cons (p : ℚ × ℚ) (l : List (ℚ × ℚ)) :
    gtiSet (p :: l) = ivalSet p ∪ gtiSet l := by
  simp [gtiSet]

theorem gtiSet_append (l₁ l₂ : List (ℚ × ℚ)) :
    gtiSet (l₁ ++ l₂) = gtiSet l₁ ∪ gtiSet l₂ := by
  induction l₁ with
  | nil => simp [gtiSet_nil, gtiSet]
  | cons p l ih => simp [gtiSet_cons, ih, Set.union_assoc]

theorem mem_gtiSet {t : ℝ} {l : List (ℚ × ℚ)} :
    t ∈ gtiSet l ↔ ∃ p ∈ l, (p.1 : ℝ) ≤ t ∧ t < (p.2 : ℝ) := by
  unfold gtiSet
  rw [Set.mem_iUnion₂]
  simp only [ivalSet, Set.mem_Ico, exists_prop]

/-- Subtracting the middle interval `[b1, b2)` from `[g1, g2)` over `ℝ`:
provided the two intervals genuinely overlap (`b1 < g2` and `g1 < b2`),
what survives is the left piece (when nonempty) and the right piece
(when nonempty). -/
theorem Ico_diff_overlap {g1 g2 b1 b2 : ℝ} (h1 : b1 < g2) (h2 : g1 < b2) :
    Set.Ico g1 g2 \ Set.Ico b1 b2 =
      (if g1 < b1 then Set.Ico g1 b1 else ∅) ∪
      (if b2 < g2 then Set.Ico b2 g2 else ∅) := by
  by_cases hA : g1 < b1 <;> by_cases hB : b2 < g2 <;>
    simp only [if_pos, if_neg, hA, hB, if_true, if_false, Set.union_empty,
      Set.empty_union] <;> ext t <;>
    simp only [Set.mem_diff, Set.mem_Ico, Set.mem_union, Set.mem_empty_iff_false,
      not_and, not_le, not_lt]
  · constructor
    · rintro ⟨⟨hg1, hg2⟩, hnb⟩
      by_cases hb1 : b1 ≤ t
      · exact Or.inr ⟨hnb hb1, hg2⟩
      · exact Or.inl ⟨hg1, lt_of_not_le hb1⟩
    · rintro (⟨ha, hb⟩ | ⟨ha, hb⟩)
      · exact ⟨⟨ha, by linarith⟩, fun hc => by linarith⟩
      · exact ⟨⟨by linarith, hb⟩, fun hc => by linarith⟩
  · constructor
    · rintro ⟨⟨hg1, hg2⟩, hnb⟩
      refine ⟨hg1, ?_⟩
      by_cases hb1 : b1 ≤ t
      · have := hnb hb1; linarith [not_lt.mp hB]
      · exact lt_of_not_le hb1
    · rintro ⟨ha, hb⟩
      exact ⟨⟨ha, by linarith⟩, fun hc => by linarith⟩
  · constructor
    · rintro ⟨⟨hg1, hg2⟩, hnb⟩
      have hb1 : b1 ≤ t := le_trans (not_lt.mp hA) hg1
      exact ⟨hnb hb1, hg2⟩
    · rintro ⟨ha, hb⟩
      exact ⟨⟨by linarith [not_lt.mp hA], hb⟩, fun hc => by linarith⟩
  · rw [iff_false]
    rintro ⟨⟨hg1, hg2⟩, hnb⟩
    have hb1 : b1 ≤ t := le_trans (not_lt.mp hA) hg1
    have := hnb hb1
    linarith [not_lt.mp hB]

theorem gtiPieces_set (bad g : ℚ × ℚ) :
    gtiSet (gtiPieces bad g) = ivalSet g \ ivalSet bad := by
  unfold gtiPieces
  by_cases h : bad.1 ≥ g.2 ∨ bad.2 ≤ g.1
  · rw [if_pos h, gtiSet_cons, gtiSet_nil, Set.union_empty]
    ext t
    simp only [ivalSet, Set.mem_diff, Set.mem_Ico]
    constructor
    · rintro ⟨ht1, ht2⟩
      refine ⟨⟨ht1, ht2⟩, ?_⟩
      rintro ⟨hb1, hb2⟩
      rcases h with h | h
      · have h3 : (g.2 : ℝ) ≤ (bad.1 : ℝ) := by exact_mod_cast h
        linarith
      · have h3 : (bad.2 : ℝ) ≤ (g.1 : ℝ) := by exact_mod_cast h
        linarith
    · rintro ⟨ht, _⟩
      exact ht
  · push_neg at h
    obtain ⟨hlt, hgt⟩ := h
    rw [if_neg (by push_neg; exact ⟨hlt, hgt⟩), gtiSet_append]
    have h1 : (bad.1 : ℝ) < (g.2 : ℝ) := by exact_mod_cast hlt
    have h2 : (g.1 : ℝ) < (bad.2 : ℝ) := by exact_mod_cast hgt
    rw [ivalSet, ivalSet, Ico_diff_overlap h1 h2]
    congr 1
    · by_cases hA : bad.1 > g.1
      · rw [if_pos hA, if_pos (by exact_mod_cast hA), gtiSet_cons, gtiSet_nil,
          Set.union_empty, ivalSet]
      · rw [if_neg hA, if_neg (by exact_mod_cast hA), gtiSet_nil]
    · by_cases hB : bad.2 < g.2
      · rw [if_pos hB, if_pos (by exact_mod_cast hB), gtiSet_cons, gtiSet_nil,
          Set.union_empty, ivalSet]
      · rw [if_neg hB, if_neg (by exact_mod_cast hB), gtiSet_nil]

theorem recomputeGTIbad_set (G : List (ℚ × ℚ)) (b : ℚ × ℚ) :
    gtiSet (recomputeGTIbad G b) = gtiSet G \ ivalSet b := by
  induction G with
  | nil => simp [recomputeGTIbad, gtiSet_nil]
  | cons g G ih =>
      have : recomputeGTIbad (g :: G) b = gtiPieces b g ++ recomputeGTIbad G b := by
        simp [recomputeGTIbad]
      rw [this, gtiSet_append, gtiPieces_set, ih, gtiSet_cons,
        Set.union_diff_distrib]

theorem recomputeGTI_foldl_set (B G : List (ℚ × ℚ)) :
    gtiSet (B.foldl recomputeGTIbad G) = gtiSet G \ gtiSet B := by
  induction B generalizing G with
  | nil => simp [gtiSet_nil]
  | cons b B ih =>
      rw [List.foldl_cons, ih, recomputeGTIbad_set, gtiSet_cons, Set.diff_diff]

theorem recomputeGTI_set (G B : List (ℚ × ℚ)) :
    gtiSet (recomputeGTI G B) = gtiSet G \ gtiSet B := by
  unfold recomputeGTI
  by_cases h : B = []
  · rw [if_pos h, h, gtiSet_nil, Set.diff_empty]
  · rw [if_neg h, recomputeGTI_foldl_set]

/-- Every surviving piece lies within the hull of the good interval that
produced it. -/
theorem gtiPieces_sub {bad g p : ℚ × ℚ} (hp : p ∈ gtiPieces bad g) :
    g.1 ≤ p.1 ∧ p.2 ≤ g.2 := by
  unfold gtiPieces at hp
  by_cases h : bad.1 ≥ g.2 ∨ bad.2 ≤ g.1
  · rw [if_pos h] at hp
    simp only [List.mem_singleton] at hp
    subst hp; exact ⟨le_refl _, le_refl _⟩
  · push_neg at h
    rw [if_neg (by push_neg; exact h)] at hp
    rcases List.mem_append.mp hp with hp | hp
    · by_cases hA : bad.1 > g.1
      · rw [if_pos hA] at hp
        simp only [List.mem_singleton] at hp
        subst hp; exact ⟨le_refl _, le_of_lt h.1⟩
      · rw [if_neg hA] at hp; cases hp
    · by_cases hB : bad.2 < g.2
      · rw [if_pos hB] at hp
        simp only [List.mem_singleton] at hp
        subst hp; exact ⟨le_of_lt h.2, le_refl _⟩
      · rw [if_neg hB] at hp; cases hp

theorem gtiPieces_valid {bad g p : ℚ × ℚ} (hg : g.1 < g.2)
    (hp : p ∈ gtiPieces bad g) : p.1 < p.2 := by
  unfold gtiPieces at hp
  by_cases h : bad.1 ≥ g.2 ∨ bad.2 ≤ g.1
  · rw [if_pos h] at hp
    simp only [List.mem_singleton] at hp
    subst hp; exact hg
  · push_neg at h
    rw [if_neg (by push_neg; exact h)] at hp
    rcases List.mem_append.mp hp with hp | hp
    · by_cases hA : bad.1 > g.1
      · rw [if_pos hA] at hp
        simp only [List.mem_singleton] at hp
        subst hp; exact hA
      · rw [if_neg hA] at hp; cases hp
    · by_cases hB : bad.2 < g.2
      · rw [if_pos hB] at hp
        simp only [List.mem_singleton] at hp
        subst hp; exact hB
      · rw [if_neg hB] at hp; cases hp

theorem gtiPieces_pairwise {bad g : ℚ × ℚ} (hb : bad.1 ≤ bad.2) :
    (gtiPieces bad g).Pairwise (fun p q => p.2 ≤ q.1) := by
  unfold gtiPieces
  by_cases h : bad.1 ≥ g.2 ∨ bad.2 ≤ g.1
  · rw [if_pos h]; simp
  · rw [if_neg h]
    by_cases hA : bad.1 > g.1 <;> by_cases hB : bad.2 < g.2 <;>
      simp [hA, hB, hb]

theorem recomputeGTIbad_ordered {G : List (ℚ × ℚ)} {b : ℚ × ℚ}
    (hord : GTIordered G) (hb : b.1 ≤ b.2) :
    GTIordered (recomputeGTIbad G b) := by
  unfold GTIordered recomputeGTIbad
  rw [List.pairwise_flatMap]
  constructor
  · intro g _
    exact gtiPieces_pairwise hb
  · refine hord.imp ?_
    intro p q hpq x hx y hy
    calc x.2 ≤ p.2 := (gtiPieces_sub hx).2
    _ ≤ q.1 := hpq
    _ ≤ y.1 := (gtiPieces_sub hy).1

theorem recomputeGTIbad_valid {G : List (ℚ × ℚ)} {b : ℚ × ℚ}
    (hval : GTIvalid G) :
    GTIvalid (recomputeGTIbad G b) := by
  intro p hp
  rcases List.mem_flatMap.mp hp with ⟨g, hg, hpg⟩
  exact gtiPieces_valid (hval g hg) hpg

theorem recomputeGTI_foldl_ordered_valid (B : List (ℚ × ℚ)) :
    ∀ G : List (ℚ × ℚ), GTIordered G → GTIvalid G →
      (∀ b ∈ B, b.1 ≤ b.2) →
      GTIordered (B.foldl recomputeGTIbad G) ∧
        GTIvalid (B.foldl recomputeGTIbad G) := by
  induction B with
  | nil => intro G h1 h2 _; exact ⟨h1, h2⟩
  | cons b B ih =>
      intro G h1 h2 hb
      rw [List.foldl_cons]
      exact ih _ (recomputeGTIbad_ordered h1 (hb b (List.mem_cons_self b B)))
        (recomputeGTIbad_valid h2)
        (fun x hx => hb x (List.mem_cons_of_mem b hx))

theorem recomputeGTI_ordered_valid {G B : List (ℚ × ℚ)}
    (h1 : GTIordered G) (h2 : GTIvalid G) (hb : ∀ b ∈ B, b.1 ≤ b.2) :
    GTIordered (recomputeGTI G B) ∧ GTIvalid (recomputeGTI G B) := by
  unfold recomputeGTI
  by_cases h : B = []
  · rw [if_pos h]; exact ⟨h1, h2⟩
  · rw [if_neg h]; exact recomputeGTI_foldl_ordered_valid B G h1 h2 hb

theorem gtiSet_measurable (l : List (ℚ × ℚ)) : MeasurableSet (gtiSet l) := by
  induction l with
  | nil => rw [gtiSet_nil]; exact MeasurableSet.empty
  | cons p l ih =>
      rw [gtiSet_cons]
      exact (measurableSet_Ico).union ih

theorem duration_nonneg {l : List (ℚ × ℚ)} (hval : GTIvalid l) :
    0 ≤ duration l := by
  induction l with
  | nil => simp [duration]
  | cons p l ih =>
      have hp : p.1 < p.2 := hval p (List.mem_cons_self p l)
      have hl : 0 ≤ duration l := ih (fun q hq => hval q (List.mem_cons_of_mem p hq))
      simp only [duration, List.map_cons, List.sum_cons]
      have : (0 : ℚ) ≤ p.2 - p.1 := by linarith
      unfold duration at hl
      linarith

theorem volume_gtiSet {l : List (ℚ × ℚ)} (hord : GTIordered l)
    (hval : GTIvalid l) :
    MeasureTheory.volume (gtiSet l) = ENNReal.ofReal ((duration l : ℚ) : ℝ) := by
  induction l with
  | nil => simp [gtiSet_nil, duration]
  | cons p l ih =>
      rw [gtiSet_cons]
      have hdisj : Disjoint (ivalSet p) (gtiSet l) := by
        rw [Set.disjoint_left]
        intro t ht ht'
        rcases mem_gtiSet.mp ht' with ⟨q, hq, hq1, _⟩
        have hpq : p.2 ≤ q.1 := (List.pairwise_cons.mp hord).1 q hq
        have hpq' : (p.2 : ℝ) ≤ (q.1 : ℝ) := by exact_mod_cast hpq
        have ht2 : t < (p.2 : ℝ) := ht.2
        linarith
      rw [MeasureTheory.measure_union hdisj (gtiSet_measurable l)]
      rw [ih (List.pairwise_cons.mp hord).2
        (fun q hq => hval q (List.mem_cons_of_mem p hq))]
      rw [ivalSet, Real.volume_Ico]
      have hp : p.1 < p.2 := hval p (List.mem_cons_self p l)
      have hp' : (p.1 : ℝ) < (p.2 : ℝ) := by exact_mod_cast hp
      have hd : 0 ≤ duration l :=
        duration_nonneg (fun q hq => hval q (List.mem_cons_of_mem p hq))
      rw [← ENNReal.ofReal_add (by linarith) (by exact_mod_cast hd)]
      congr 1
      have : duration (p :: l) = (p.2 - p.1) + duration l := by
        simp [duration]
      rw [this]
      push_cast
      ring

/-- **C1.** GTI subtraction (`recomputeGTI` applied in sequence to the burst
list `B₁` and the bad-time list `B₂`, as `recomputeExptime` does): starting
from a sorted, pairwise-disjoint good set `G` of nonempty intervals and
well-formed bad intervals, the resulting good set is again sorted,
pairwise-disjoint and nonempty; as a subset of the real line it is exactly
`G` minus the bad time (each overlapping good interval is replaced by its
surviving pieces and non-overlapping ones pass through, per `gtiPieces`);
and its total duration equals `duration G` minus the measure of
`G ∩ (B₁ ∪ B₂)`. -/
theorem recomputeGTI_sorted_disjoint_duration (G B₁ B₂ : List (ℚ × ℚ))
    (hord : GTIordered G) (hval : GTIvalid G)
    (hb₁ : ∀ b ∈ B₁, b.1 ≤ b.2) (hb₂ : ∀ b ∈ B₂, b.1 ≤ b.2) :
    GTIordered (recomputeGTI (recomputeGTI G B₁) B₂) ∧
    GTIvalid (recomputeGTI (recomputeGTI G B₁) B₂) ∧
    gtiSet (recomputeGTI (recomputeGTI G B₁) B₂)
      = gtiSet G \ (gtiSet B₁ ∪ gtiSet B₂) ∧
    ((duration (recomputeGTI (recomputeGTI G B₁) B₂) : ℝ)
      = ((duration G : ℚ) : ℝ)
        - (MeasureTheory.volume
            (gtiSet G ∩ (gtiSet B₁ ∪ gtiSet B₂))).toReal) := by
  obtain ⟨hord₁, hval₁⟩ := recomputeGTI_ordered_valid hord hval hb₁
  obtain ⟨hord₂, hval₂⟩ := recomputeGTI_ordered_valid hord₁ hval₁ hb₂
  have hset : gtiSet (recomputeGTI (recomputeGTI G B₁) B₂)
      = gtiSet G \ (gtiSet B₁ ∪ gtiSet B₂) := by
    rw [recomputeGTI_set, recomputeGTI_set, Set.diff_diff]
  refine ⟨hord₂, hval₂, hset, ?_⟩
  set U : Set ℝ := gtiSet B₁ ∪ gtiSet B₂ with hU
  have hUm : MeasurableSet U := (gtiSet_measurable B₁).union (gtiSet_measurable B₂)
  have hkey := MeasureTheory.measure_inter_add_diff (μ := MeasureTheory.volume)
    (gtiSet G) hUm
  rw [volume_gtiSet hord hval] at hkey
  have hdval : MeasureTheory.volume (gtiSet G \ U)
      = ENNReal.ofReal ((duration (recomputeGTI (recomputeGTI G B₁) B₂) : ℚ) : ℝ) := by
    rw [← hset]
    exact volume_gtiSet hord₂ hval₂
  rw [hdval] at hkey
  have hfin : MeasureTheory.volume (gtiSet G ∩ U) ≠ ⊤ := by
    have hle : MeasureTheory.volume (gtiSet G ∩ U)
        ≤ MeasureTheory.volume (gtiSet G) :=
      MeasureTheory.measure_mono Set.inter_subset_left
    rw [volume_gtiSet hord hval] at hle
    exact ne_top_of_le_ne_top ENNReal.ofReal_ne_top hle
  have := congrArg ENNReal.toReal hkey
  rw [ENNReal.toReal_add hfin ENNReal.ofReal_ne_top] at this
  rw [ENNReal.toReal_ofReal (by exact_mod_cast duration_nonneg hval₂),
    ENNReal.toReal_ofReal (by exact_mod_cast duration_nonneg hval)] at this
  linarith

/-- Witness for C1 at a concrete input: good set `[[0,3),[5,9)]`, burst list
`[[2,6)]`, bad-time list `[[7,8)]`. -/
theorem recomputeGTI_sorted_disjoint_duration_witness :
    (GTIordered [((0 : ℚ), 3), (5, 9)] ∧ GTIvalid [((0 : ℚ), 3), (5, 9)] ∧
      (∀ b ∈ [((2 : ℚ), 6)], b.1 ≤ b.2) ∧ (∀ b ∈ [((7 : ℚ), 8)], b.1 ≤ b.2)) ∧
    (GTIordered (recomputeGTI (recomputeGTI [((0 : ℚ), 3), (5, 9)] [((2 : ℚ), 6)])
        [((7 : ℚ), 8)]) ∧
      GTIvalid (recomputeGTI (recomputeGTI [((0 : ℚ), 3), (5, 9)] [((2 : ℚ), 6)])
        [((7 : ℚ), 8)]) ∧
      gtiSet (recomputeGTI (recomputeGTI [((0 : ℚ), 3), (5, 9)] [((2 : ℚ), 6)])
          [((7 : ℚ), 8)])
        = gtiSet [((0 : ℚ), 3), (5, 9)]
            \ (gtiSet [((2 : ℚ), 6)] ∪ gtiSet [((7 : ℚ), 8)]) ∧
      ((duration (recomputeGTI (recomputeGTI [((0 : ℚ), 3), (5, 9)] [((2 : ℚ), 6)])
            [((7 : ℚ), 8)]) : ℝ)
        = ((duration [((0 : ℚ), 3), (5, 9)] : ℚ) : ℝ)
          - (MeasureTheory.volume
              (gtiSet [((0 : ℚ), 3), (5, 9)]
                ∩ (gtiSet [((2 : ℚ), 6)] ∪ gtiSet [((7 : ℚ), 8)]))).toReal)) :=
  ⟨⟨by decide, by decide, by decide, by decide⟩,
    recomputeGTI_sorted_disjoint_duration [((0 : ℚ), 3), (5, 9)] [((2 : ℚ), 6)]
      [((7 : ℚ), 8)] (by decide) (by decide) (by decide) (by decide)⟩

/-! ## Livetime interpolation (`determineLivetime`, timetag.py lines 2186-2219)

The deadtab reference table is modelled as a list of rows
`(obs_rate, live_factor)`; the source reads the two columns of one table,
so the rows are aligned by construction. -/

/-- The interpolation loop of `determineLivetime`
(`for i in range (n-1): if countrate < obs_rate[i+1]: ...`): find the first
interval whose upper rate exceeds `countrate` and interpolate linearly.
The fallthrough value `1` is never reached when `countrate` is below the
last tabulated rate, which the caller guarantees. -/
def interpLivetime (countrate : ℚ) : List (ℚ × ℚ) → ℚ
  | (r₁, f₁) :: (r₂, f₂) :: rest =>
      if countrate < r₂ then
        let p := (countrate - r₁) / (r₂ - r₁)
        let q := 1 - p
        f₁ * q + f₂ * p
      else interpLivetime countrate ((r₂, f₂) :: rest)
  | _ => 1

/-- The positive-rate branch of `determineLivetime` (`elif n == 1`, the two
clamp branches, and the interpolation loop). -/
def determineLivetimePos (countrate : ℚ) : List (ℚ × ℚ) → ℚ
  | [] => 1
  | [row] => row.2
  | row :: next :: rest =>
      if countrate < row.1 then 1
      else if ((row :: next :: rest).getLastD (0, 1)).1 ≤ countrate then
        ((row :: next :: rest).getLastD (0, 1)).2
      else interpLivetime countrate (row :: next :: rest)

/-- `determineLivetime`: livetime factor from an observed count rate, by
piecewise-linear interpolation in the deadtab table.  Nonpositive rates give
factor 1; a one-row table gives its factor; a rate below the first tabulated
rate gives 1; a rate at or above the last tabulated rate gives the last
factor; otherwise the factor is interpolated. -/
def determineLivetime (countrate : ℚ) (tbl : List (ℚ × ℚ)) : ℚ :=
  if countrate ≤ 0 then 1
  else determineLivetimePos countrate tbl

/-- **C2 counterexample.** With table rates `[0, 100, 200]` and factors
`[1.0, 0.9, 0.7]`, the rate 50 lies inside the sampled range (it is not
below the lowest sampled rate, 0), so the code interpolates between the
first two rows and returns 0.95, not the 1.0 the claim asserts. -/
theorem determineLivetime_at_50_counterexample :
    determineLivetime 50 [(0, 1), (100, 9/10), (200, 7/10)] = 19/20 ∧
      (19/20 : ℚ) ≠ 1 := by
  constructor
  · norm_num [determineLivetime, determineLivetimePos, interpLivetime,
      List.getLastD]
  · norm_num

/-- The interpolation loop is only ever entered with `countrate` at or above
the head rate; it then always lands in an interval with
`r_i ≤ countrate < r_{i+1}` (so the weight `p` is a convex coefficient),
hence a table of positive factors yields a positive result. -/
theorem interpLivetime_pos (countrate : ℚ) :
    ∀ tbl : List (ℚ × ℚ), (∀ r ∈ tbl, 0 < r.2) →
      (∀ r ∈ tbl.take 1, r.1 ≤ countrate) →
      0 < interpLivetime countrate tbl
  | [], _, _ => by norm_num [interpLivetime]
  | [r], _, _ => by norm_num [interpLivetime]
  | (a₁, b₁) :: (a₂, b₂) :: rest, hpos, hhead => by
      rw [interpLivetime]
      by_cases h : countrate < a₂
      · rw [if_pos h]
        have hb₁ : (0 : ℚ) < b₁ := hpos (a₁, b₁) (by simp)
        have hb₂ : (0 : ℚ) < b₂ := hpos (a₂, b₂) (by simp)
        have hc : a₁ ≤ countrate := hhead (a₁, b₁) (by simp)
        have ha : a₁ < a₂ := lt_of_le_of_lt hc h
        have hp0 : 0 ≤ (countrate - a₁) / (a₂ - a₁) := by
          apply div_nonneg <;> linarith
        have hp1 : (countrate - a₁) / (a₂ - a₁) < 1 := by
          rw [div_lt_one (by linarith)]
          linarith
        nlinarith
      · rw [if_neg h]
        exact interpLivetime_pos countrate ((a₂, b₂) :: rest)
          (fun r hr => hpos r (List.mem_cons_of_mem _ hr))
          (fun r hr => by
            simp only [List.take_succ_cons, List.take_zero,
              List.mem_singleton] at hr
            subst hr
            exact le_of_not_lt h)

/-- `determineLivetime` is positive whenever every tabulated factor is
positive. -/
theorem determineLivetime_pos (countrate : ℚ) (tbl : List (ℚ × ℚ))
    (hpos : ∀ r ∈ tbl, 0 < r.2) : 0 < determineLivetime countrate tbl := by
  unfold determineLivetime
  by_cases h0 : countrate ≤ 0
  · rw [if_pos h0]; norm_num
  · rw [if_neg h0]
    match tbl, hpos with
    | [], _ => norm_num [determineLivetimePos]
    | [row], hpos => exact hpos row (by simp)
    | row :: next :: rest, hpos =>
        rw [determineLivetimePos]
        by_cases h1 : countrate < row.1
        · rw [if_pos h1]; norm_num
        · rw [if_neg h1]
          by_cases h2 : (((row :: next :: rest).getLastD (0, 1)).1 ≤ countrate)
          · rw [if_pos h2]
            have hmem : (row :: next :: rest).getLast (by simp) ∈ row :: next :: rest :=
              List.getLast_mem _
            rw [List.getLastD_eq_getLast?, List.getLast?_eq_getLast _ (by simp)]
            exact hpos _ hmem
          · rw [if_neg h2]
            exact interpLivetime_pos countrate _ hpos
              (fun r hr => by
                simp only [List.take_succ_cons, List.take_zero,
                  List.mem_singleton] at hr
                subst hr
                exact le_of_not_lt h1)

/-- **C2 (amended).** `determineLivetime` interpolates linearly between
table samples and clamps to the end values outside the sampled range:
factor 1 strictly below the lowest sampled rate, the last factor at or
above the highest (for tables with at least two rows).  In particular, for
table rates `[0, 100, 200]` and factors `[1.0, 0.9, 0.7]`: the rate 50 lies
inside the sampled range, so `determineLivetime 50 = 0.95` (interpolated,
not the clamped 1.0), `determineLivetime 150 = 0.8`, and
`determineLivetime 250 = 0.7`. -/
theorem determineLivetime_clamped_interpolation :
    (determineLivetime 50 [(0, 1), (100, 9/10), (200, 7/10)] = 19/20 ∧
     determineLivetime 150 [(0, 1), (100, 9/10), (200, 7/10)] = 4/5 ∧
     determineLivetime 250 [(0, 1), (100, 9/10), (200, 7/10)] = 7/10) ∧
    (∀ (c : ℚ) (row next : ℚ × ℚ) (rest : List (ℚ × ℚ)),
      c < row.1 → determineLivetime c (row :: next :: rest) = 1) ∧
    (∀ (c : ℚ) (row next : ℚ × ℚ) (rest : List (ℚ × ℚ)),
      0 < c → row.1 ≤ c →
      ((row :: next :: rest).getLastD (0, 1)).1 ≤ c →
      determineLivetime c (row :: next :: rest)
        = ((row :: next :: rest).getLastD (0, 1)).2) := by
  refine ⟨⟨?_, ?_, ?_⟩, ?_, ?_⟩
  · norm_num [determineLivetime, determineLivetimePos, interpLivetime,
      List.getLastD]
  · norm_num [determineLivetime, determineLivetimePos, interpLivetime,
      List.getLastD]
  · norm_num [determineLivetime, determineLivetimePos, interpLivetime,
      List.getLastD]
  · intro c row next rest hlt
    unfold determineLivetime
    by_cases h0 : c ≤ 0
    · rw [if_pos h0]
    · rw [if_neg h0, determineLivetimePos, if_pos hlt]
  · intro c row next rest hc hrow hlast
    unfold determineLivetime
    rw [if_neg (not_le.mpr hc), determineLivetimePos,
      if_neg (not_lt.mpr hrow), if_pos hlast]

/-- Witness for the quantified clamp statements of C2 at concrete inputs. -/
theorem determineLivetime_clamped_interpolation_witness :
    ((5 : ℚ) < 10 ∧
      determineLivetime 5 [((10 : ℚ), 1/2), (20, 1/3)] = 1) ∧
    ((0 : ℚ) < 25 ∧ (10 : ℚ) ≤ 25 ∧
      (([((10 : ℚ), 1/2), (20, 1/3)].getLastD (0, 1)).1 ≤ 25) ∧
      determineLivetime 25 [((10 : ℚ), 1/2), (20, 1/3)]
        = ([((10 : ℚ), 1/2), (20, 1/3)].getLastD (0, 1)).2) :=
  ⟨⟨by norm_num,
      determineLivetime_clamped_interpolation.2.1 5 (10, 1/2) (20, 1/3) []
        (by norm_num)⟩,
    ⟨by norm_num, by norm_num, by norm_num [List.getLastD],
      determineLivetime_clamped_interpolation.2.2 25 (10, 1/2) (20, 1/3) []
        (by norm_num) (by norm_num) (by norm_num [List.getLastD])⟩⟩

/-! ## Stim tracking and thermal distortion
(`computeThermalParam`, `findStim`, `thermalParam`, `thermalDistortion`,
`doTempcorr`; timetag.py lines 705-1218) -/

/-- Modelled from the spec: `ccos.range` (C extension, not under `src/`) is
the lookup-time-range operation: for the event time column it returns the
index range `(i, j)` of the events whose times fall in the half-open window
`[t0, t1)`, and raises an exception on an empty match (modelled by `none`);
callers wrap it in try/except and skip the window. -/
def ccosRange (time : List ℚ) (t0 t1 : ℚ) : Option (ℕ × ℕ) :=
  let i := time.countP (fun t => decide (t < t0))
  let j := time.countP (fun t => decide (t < t1))
  if i < j then some (i, j) else none

/-- The slice `l[i:j]` of a column. -/
def colSlice {α : Type} (l : List α) (i j : ℕ) : List α :=
  (l.take j).drop i

/-- Result of `findStim`: the measured centroid `(sy, sx)` and the sums of
squared deviations `(sumysq, sumxsq)` when any event fell in the search box,
the number of events in the box, and the found flag. -/
structure StimFind where
  s : Option (ℚ × ℚ)
  sumsq : Option (ℚ × ℚ)
  n : ℕ
  found : Bool
  deriving Repr, DecidableEq

/-- Membership of an event `(x, y)` in the stim search box: a rectangle of
half-widths `xwidth`, `ywidth` around the reference position
`stim_ref = (sy, sx)`, with the y range truncated to `[1, 1022]` (the
detector's valid line range, excluding the first and last lines). -/
def inStimBox (stim_ref : ℚ × ℚ) (xwidth ywidth : ℚ) (e : ℚ × ℚ) : Bool :=
  let sxlow := stim_ref.2 - xwidth
  let sxhigh := stim_ref.2 + xwidth
  let sylow := max (stim_ref.1 - ywidth) 1
  let syhigh := min (stim_ref.1 + ywidth) 1022
  decide (sxlow ≤ e.1 ∧ e.1 ≤ sxhigh ∧ sylow ≤ e.2 ∧ e.2 ≤ syhigh)

/-- `findStim`: find one stim in the events `(x, y)`.  The source builds a
0/1 mask over the arrays and takes masked sums; that is modelled here by
filtering the events inside the box.  The centroid is computed as the mean
offset from the reference position, added back to the reference (reducing
numerical cancellation in the source). -/
def findStim (xs ys : List ℚ) (stim_ref : ℚ × ℚ) (xwidth ywidth : ℚ) :
    StimFind :=
  let sel := (xs.zip ys).filter (inStimBox stim_ref xwidth ywidth)
  let n := sel.length
  if n = 0 then ⟨none, none, 0, false⟩
  else
    let sumx := (sel.map (fun e => e.1 - stim_ref.2)).sum
    let sumy := (sel.map (fun e => e.2 - stim_ref.1)).sum
    let sx := sumx / (n : ℚ) + stim_ref.2
    let sy := sumy / (n : ℚ) + stim_ref.1
    let sumxsq := (sel.map (fun e => (e.1 - sx) ^ 2)).sum
    let sumysq := (sel.map (fun e => (e.2 - sy) ^ 2)).sum
    ⟨some (sy, sx), some (sumysq, sumxsq), n, true⟩

/-- `thermalParam`: linear thermal distortion correction from measured stim
positions `s1`, `s2` (each `(y, x)`, or `none` when the position is the
source's `(None, None)`) and the reference positions.  Returns
`(xintercept, xslope, yintercept, yslope)`. -/
def thermalParam (s1 s2 : Option (ℚ × ℚ)) (s1_ref s2_ref : ℚ × ℚ) :
    ℚ × ℚ × ℚ × ℚ :=
  match s1, s2 with
  | some p1, some p2 =>
      let xslope := (s2_ref.2 - s1_ref.2) / (p2.2 - p1.2)
      let xintercept := s1_ref.2 - p1.2 * xslope
      let yslope := (s2_ref.1 - s1_ref.1) / (p2.1 - p1.1)
      let yintercept := s1_ref.1 - p1.1 * yslope
      (xintercept, xslope, yintercept, yslope)
  | _, _ => (0, 1, 0, 1)

/-- Running sums for the average and RMS of the stim positions
(`sumstim` in the source). -/
structure StimSum where
  n1 : ℕ
  sum1y : ℚ
  sum1x : ℚ
  sumsq1y : ℚ
  sumsq1x : ℚ
  n2 : ℕ
  sum2y : ℚ
  sum2x : ℚ
  sumsq2y : ℚ
  sumsq2x : ℚ
  deriving Repr, DecidableEq

/-- `updateStimSum`: increment the sums for averaging the stim positions,
weighting by the number of events found in the current window. -/
def updateStimSum (ss : StimSum)
    (nevents1 : ℕ) (s1 : Option (ℚ × ℚ)) (sumsq1 : Option (ℚ × ℚ))
    (found_s1 : Bool)
    (nevents2 : ℕ) (s2 : Option (ℚ × ℚ)) (sumsq2 : Option (ℚ × ℚ))
    (found_s2 : Bool) : StimSum :=
  let ss1 :=
    if found_s1 then
      { ss with
        n1 := ss.n1 + nevents1
        sum1y := ss.sum1y + (s1.getD (0, 0)).1 * (nevents1 : ℚ)
        sum1x := ss.sum1x + (s1.getD (0, 0)).2 * (nevents1 : ℚ)
        sumsq1y := ss.sumsq1y + (sumsq1.getD (0, 0)).1
        sumsq1x := ss.sumsq1x + (sumsq1.getD (0, 0)).2 }
    else ss
  if found_s2 then
    { ss1 with
      n2 := ss1.n2 + nevents2
      sum2y := ss1.sum2y + (s2.getD (0, 0)).1 * (nevents2 : ℚ)
      sum2x := ss1.sum2x + (s2.getD (0, 0)).2 * (nevents2 : ℚ)
      sumsq2y := ss1.sumsq2y + (sumsq2.getD (0, 0)).1
      sumsq2x := ss1.sumsq2x + (sumsq2.getD (0, 0)).2 }
  else ss1

/-- The per-window thermal correction parameters computed by
`computeThermalParam` (`stim_param` in the source): index ranges `i0`,`i1`
into the event list and the per-window affine coefficients.  The
`i0`/`i1` pair is optional because `thermalDistortion` also accepts a
parameter dictionary without them (`stim_param.has_key ("i0")`). -/
structure StimParam where
  i0i1 : Option (List ℕ × List ℕ)
  x0 : List ℚ
  xslope : List ℚ
  y0 : List ℚ
  yslope : List ℚ
  deriving Repr, DecidableEq

/-- Loop state of `computeThermalParam`: the hold-last-value stim positions
(initialized to the reference positions), the accumulated per-window
parameter lists, the running stim sums, and the counts of the most recent
processed window (the source reassigns `counts1`, `counts2` each window and
uses their final values for the stim count rate). -/
structure ThermalState where
  last_s1 : ℚ × ℚ
  last_s2 : ℚ × ℚ
  i0 : List ℕ
  i1 : List ℕ
  x0 : List ℚ
  xslope : List ℚ
  y0 : List ℚ
  yslope : List ℚ
  sums : StimSum
  counts1 : ℕ
  counts2 : ℕ
  deriving Repr, DecidableEq

/-- Number of iterations of the window loop of `computeThermalParam`:
`t0` starts at `time[0]` and advances by `dt` while `t0 ≤ time[-1]`. -/
def numThermalWindows (t0 tlast dt : ℚ) : ℕ :=
  (⌊(tlast - t0) / dt⌋ + 1).toNat

/-- One iteration of the window loop of `computeThermalParam` for window
index `k` (window `[t0 + k·dt, t0 + (k+1)·dt)`): find both stims in the
window's event slice, apply the hold-last-value policy for a stim that was
not found, update the running sums, and append the window's affine
parameters. -/
def computeThermalStep (time xs ys : List ℚ) (s1_ref s2_ref : ℚ × ℚ)
    (xwidth ywidth dt : ℚ) (st : ThermalState) (k : ℕ) : ThermalState :=
  let t0 := time.headD 0 + (k : ℚ) * dt
  let t1 := t0 + dt
  match ccosRange time t0 t1 with
  | none => st
  | some (i, j) =>
      if j ≤ i then st
      else
        let r1 := findStim (colSlice xs i j) (colSlice ys i j) s1_ref
          xwidth ywidth
        let r2 := findStim (colSlice xs i j) (colSlice ys i j) s2_ref
          xwidth ywidth
        let sums := updateStimSum st.sums r1.n r1.s r1.sumsq r1.found
          r2.n r2.s r2.sumsq r2.found
        let s1 := r1.s.getD st.last_s1
        let s2 := r2.s.getD st.last_s2
        let par := thermalParam (some s1) (some s2) s1_ref s2_ref
        { last_s1 := s1
          last_s2 := s2
          i0 := st.i0 ++ [i]
          i1 := st.i1 ++ [j]
          x0 := st.x0 ++ [par.1]
          xslope := st.xslope ++ [par.2.1]
          y0 := st.y0 ++ [par.2.2.1]
          yslope := st.yslope ++ [par.2.2.2]
          sums := sums
          counts1 := r1.n
          counts2 := r2.n }

/-- Result of `computeThermalParam`.  The average and RMS stim positions
written to header keywords are diagnostic output derived from `sums` (the
source additionally takes square roots for the RMS values, which have no
exact rational representation and feed only header keywords, so the raw
sums are kept here). -/
structure ThermalResult where
  stim_param : StimParam
  sums : StimSum
  stim_countrate : Option ℚ
  stim_livetime : ℚ
  deriving Repr, DecidableEq

/-- `computeThermalParam`: loop over time windows of width `dt_thermal`
(the brftab `timestep` for TIME-TAG data, the whole exposure plus one
second for ACCUM), find the stims in each window, and collect the
per-window thermal correction parameters; afterwards derive the observed
stim count rate and the stim livetime.  The stim reference positions are
`s1_ref = (sy1, sx1)`, `s2_ref = (sy2, sx2)` from the brftab row. -/
def computeThermalParam (time xs ys : List ℚ) (s1_ref s2_ref : ℚ × ℚ)
    (xwidth ywidth : ℚ) (obsmode : String) (timestep : ℚ)
    (exptime stimrate : ℚ) : ThermalResult :=
  let t0 := time.headD 0
  let tlast := time.getLastD 0
  let dt : ℚ := if obsmode = "TIME-TAG" then timestep else tlast - t0 + 1
  let init : ThermalState :=
    { last_s1 := s1_ref, last_s2 := s2_ref,
      i0 := [], i1 := [], x0 := [], xslope := [], y0 := [], yslope := [],
      sums := ⟨0, 0, 0, 0, 0, 0, 0, 0, 0, 0⟩, counts1 := 0, counts2 := 0 }
  let final := (List.range (numThermalWindows t0 tlast dt)).foldl
    (computeThermalStep time xs ys s1_ref s2_ref xwidth ywidth dt) init
  let stim_countrate : Option ℚ :=
    if 0 < final.counts1 ∧ 0 < final.counts2 then
      some (((final.counts1 : ℚ) + (final.counts2 : ℚ)) / (2 * exptime))
    else if 0 < final.counts1 then some ((final.counts1 : ℚ) / exptime)
    else if 0 < final.counts2 then some ((final.counts2 : ℚ) / exptime)
    else none
  let stim_livetime : ℚ :=
    match stim_countrate with
    | some cr => if 0 < stimrate then cr / stimrate else 1
    | none => 1
  { stim_param :=
      { i0i1 := some (final.i0, final.i1),
        x0 := final.x0, xslope := final.xslope,
        y0 := final.y0, yslope := final.yslope }
    sums := final.sums
    stim_countrate := stim_countrate
    stim_livetime := stim_livetime }

/-- Apply the affine map `v ↦ c + v * m` to the slice `[i, j)` of a
coordinate column (`x[i:j] = x0[n] + x[i:j] * xslope[n]` in the source). -/
def affineSlice (v : List ℚ) (i j : ℕ) (c m : ℚ) : List ℚ :=
  v.mapIdx (fun k a => if i ≤ k ∧ k < j then c + a * m else a)

/-- `thermalDistortion`: apply the per-window thermal distortion correction
to the coordinate columns.  A window whose parameters are exactly the
identity (intercepts 0, slopes 1) is skipped; the returned flag is true iff
any window was actually corrected.  The source indexes the parameter lists
directly (`x0[n]`, all lists have the same length by construction in
`computeThermalParam`); out-of-range defaults are taken to be the identity
parameters. -/
def thermalDistortion (x y : List ℚ) (sp : StimParam) :
    List ℚ × List ℚ × Bool :=
  let ranges := match sp.i0i1 with
    | some p => p
    | none => ([0], [x.length])
  (List.range ranges.1.length).foldl
    (fun acc n =>
      let i := ranges.1.getD n 0
      let j := ranges.2.getD n 0
      if sp.x0.getD n 0 ≠ 0 ∨ sp.xslope.getD n 1 ≠ 1 ∨
          sp.y0.getD n 0 ≠ 0 ∨ sp.yslope.getD n 1 ≠ 1 then
        (affineSlice acc.1 i j (sp.x0.getD n 0) (sp.xslope.getD n 1),
         affineSlice acc.2.1 i j (sp.y0.getD n 0) (sp.yslope.getD n 1),
         true)
      else acc)
    (x, y, false)

/-- `doTempcorr`: for FUV data with the TEMPCORR switch set to PERFORM,
apply `thermalDistortion`; the switch becomes COMPLETE if a correction was
actually applied and SKIPPED otherwise (recorded in the primary header).
Returns the recorded switch state and the updated coordinate columns. -/
def doTempcorr (sp : StimParam) (x y : List ℚ)
    (detector tempcorr : String) : String × List ℚ × List ℚ :=
  if detector = "FUV" ∧ tempcorr = "PERFORM" then
    let r := thermalDistortion x y sp
    (if r.2.2 then "COMPLETE" else "SKIPPED", r.1, r.2.1)
  else (tempcorr, x, y)

/-- A list all of whose members equal the default yields that value under
`getD` at any index. -/
theorem getD_of_all {α : Type} {l : List α} {a : α}
    (h : ∀ c ∈ l, c = a) : ∀ k : ℕ, l.getD k a = a := by
  induction l with
  | nil => intro k; simp [List.getD]
  | cons c l ih =>
      intro k
      cases k with
      | zero => simpa using h c (List.mem_cons_self c l)
      | succ k =>
          rw [List.getD_cons_succ]
          exact ih (fun x hx => h x (List.mem_cons_of_mem c hx)) k

theorem foldl_fixed_of_step_id {α β : Type} (f : β → α → β)
    (h : ∀ b a, f b a = b) : ∀ (l : List α) (b : β), l.foldl f b = b := by
  intro l
  induction l with
  | nil => intro b; rfl
  | cons a l ih => intro b; rw [List.foldl_cons, h b a]; exact ih b

/-- `thermalDistortion` does nothing, and reports that it did nothing, when
every window's parameters are exactly the identity map. -/
theorem thermalDistortion_id {x y : List ℚ} {sp : StimParam}
    (h1 : ∀ c ∈ sp.x0, c = 0) (h2 : ∀ m ∈ sp.xslope, m = 1)
    (h3 : ∀ c ∈ sp.y0, c = 0) (h4 : ∀ m ∈ sp.yslope, m = 1) :
    thermalDistortion x y sp = (x, y, false) := by
  unfold thermalDistortion
  refine foldl_fixed_of_step_id _ ?_ _ _
  intro b n
  rw [getD_of_all h1 n, getD_of_all h2 n, getD_of_all h3 n, getD_of_all h4 n]
  simp

/-- **C8.** When the thermal-distortion correction is requested
(`tempcorr = PERFORM`, FUV detector) but every window's affine parameters
are the identity (the applicability precondition fails, e.g. no usable stim
measurement), the switch is recorded as SKIPPED and the event coordinates
are left unchanged; the function returns normally, so the run continues. -/
theorem tempcorr_skipped_on_identity (sp : StimParam) (x y : List ℚ)
    (h1 : ∀ c ∈ sp.x0, c = 0) (h2 : ∀ m ∈ sp.xslope, m = 1)
    (h3 : ∀ c ∈ sp.y0, c = 0) (h4 : ∀ m ∈ sp.yslope, m = 1) :
    doTempcorr sp x y "FUV" "PERFORM" = ("SKIPPED", x, y) := by
  unfold doTempcorr
  rw [if_pos ⟨rfl, rfl⟩, thermalDistortion_id h1 h2 h3 h4]
  rfl

/-- Witness for C8 at a concrete identity parameter set. -/
theorem tempcorr_skipped_on_identity_witness :
    ((∀ c ∈ [(0 : ℚ), 0], c = 0) ∧ (∀ m ∈ [(1 : ℚ), 1], m = 1)) ∧
    doTempcorr ⟨some ([0, 1], [1, 2]), [0, 0], [1, 1], [0, 0], [1, 1]⟩
        [(3 : ℚ), 7] [(4 : ℚ), 8] "FUV" "PERFORM"
      = ("SKIPPED", [(3 : ℚ), 7], [(4 : ℚ), 8]) :=
  ⟨⟨by norm_num, by norm_num⟩,
    tempcorr_skipped_on_identity ⟨some ([0, 1], [1, 2]), [0, 0], [1, 1], [0, 0], [1, 1]⟩
      [(3 : ℚ), 7] [(4 : ℚ), 8]
      (by norm_num) (by norm_num) (by norm_num) (by norm_num)⟩

theorem zip_take_take {α β : Type} :
    ∀ (xs : List α) (ys : List β) (n : ℕ),
      (xs.take n).zip (ys.take n) = (xs.zip ys).take n
  | [], _, _ => by simp
  | _ :: _, [], _ => by simp
  | _ :: _, _ :: _, 0 => rfl
  | x :: xs, y :: ys, (n + 1) => by
      simp only [List.take_succ_cons, List.zip_cons_cons]
      rw [zip_take_take xs ys n]

theorem zip_drop_drop {α β : Type} :
    ∀ (xs : List α) (ys : List β) (n : ℕ),
      (xs.drop n).zip (ys.drop n) = (xs.zip ys).drop n
  | [], _, _ => by simp
  | _ :: _, [], _ => by simp
  | _ :: _, _ :: _, 0 => rfl
  | x :: xs, y :: ys, (n + 1) => by
      simp only [List.drop_succ_cons, List.zip_cons_cons]
      rw [zip_drop_drop xs ys n]

theorem colSlice_zip (xs ys : List ℚ) (i j : ℕ) :
    (colSlice xs i j).zip (colSlice ys i j) = colSlice (xs.zip ys) i j := by
  unfold colSlice
  rw [zip_drop_drop, zip_take_take]

theorem mem_of_mem_colSlice {α : Type} {a : α} {l : List α} {i j : ℕ}
    (h : a ∈ colSlice l i j) : a ∈ l := by
  unfold colSlice at h
  exact ((List.drop_sublist i (l.take j)).trans (List.take_sublist j l)).mem h

/-- If no event at all lies in the stim search box, `findStim` reports the
stim as not found. -/
theorem findStim_not_found {xs ys : List ℚ} {stim_ref : ℚ × ℚ}
    {xwidth ywidth : ℚ}
    (h : ∀ e ∈ xs.zip ys, inStimBox stim_ref xwidth ywidth e = false) :
    findStim xs ys stim_ref xwidth ywidth = ⟨none, none, 0, false⟩ := by
  unfold findStim
  have hf : (xs.zip ys).filter (inStimBox stim_ref xwidth ywidth) = [] := by
    rw [List.filter_eq_nil_iff]
    intro e he
    rw [h e he]
    exact Bool.false_ne_true
  rw [hf]
  rfl

/-- When both measured positions coincide with the references, the affine
map degenerates to the identity (slope 1, intercept 0), provided the two
reference stims are at distinct positions on both axes. -/
theorem thermalParam_at_refs (s1_ref s2_ref : ℚ × ℚ)
    (hx : s1_ref.2 ≠ s2_ref.2) (hy : s1_ref.1 ≠ s2_ref.1) :
    thermalParam (some s1_ref) (some s2_ref) s1_ref s2_ref = (0, 1, 0, 1) := by
  have hx' : s2_ref.2 - s1_ref.2 ≠ 0 := sub_ne_zero.mpr (Ne.symm hx)
  have hy' : s2_ref.1 - s1_ref.1 ≠ 0 := sub_ne_zero.mpr (Ne.symm hy)
  show ((s1_ref.2 - s1_ref.2 * ((s2_ref.2 - s1_ref.2) / (s2_ref.2 - s1_ref.2)),
      (s2_ref.2 - s1_ref.2) / (s2_ref.2 - s1_ref.2),
      s1_ref.1 - s1_ref.1 * ((s2_ref.1 - s1_ref.1) / (s2_ref.1 - s1_ref.1)),
      (s2_ref.1 - s1_ref.1) / (s2_ref.1 - s1_ref.1)) : ℚ × ℚ × ℚ × ℚ)
    = (0, 1, 0, 1)
  rw [div_self hx', div_self hy']
  simp

/-- One window step of the C3 invariant: when no event of the exposure ever
falls in either stim search box, a step keeps the hold-last-value positions
at the reference positions and appends only identity parameters. -/
theorem computeThermalStep_identity
    (time xs ys : List ℚ) (s1_ref s2_ref : ℚ × ℚ) (xw yw dt : ℚ)
    (hx : s1_ref.2 ≠ s2_ref.2) (hy : s1_ref.1 ≠ s2_ref.1)
    (h1 : ∀ e ∈ xs.zip ys, inStimBox s1_ref xw yw e = false)
    (h2 : ∀ e ∈ xs.zip ys, inStimBox s2_ref xw yw e = false)
    (st : ThermalState) (k : ℕ)
    (e1 : st.last_s1 = s1_ref) (e2 : st.last_s2 = s2_ref) :
    (computeThermalStep time xs ys s1_ref s2_ref xw yw dt st k).last_s1
        = s1_ref ∧
    (computeThermalStep time xs ys s1_ref s2_ref xw yw dt st k).last_s2
        = s2_ref ∧
    ((computeThermalStep time xs ys s1_ref s2_ref xw yw dt st k).x0 = st.x0 ∨
     (computeThermalStep time xs ys s1_ref s2_ref xw yw dt st k).x0
        = st.x0 ++ [0]) ∧
    ((computeThermalStep time xs ys s1_ref s2_ref xw yw dt st k).xslope
        = st.xslope ∨
     (computeThermalStep time xs ys s1_ref s2_ref xw yw dt st k).xslope
        = st.xslope ++ [1]) ∧
    ((computeThermalStep time xs ys s1_ref s2_ref xw yw dt st k).y0 = st.y0 ∨
     (computeThermalStep time xs ys s1_ref s2_ref xw yw dt st k).y0
        = st.y0 ++ [0]) ∧
    ((computeThermalStep time xs ys s1_ref s2_ref xw yw dt st k).yslope
        = st.yslope ∨
     (computeThermalStep time xs ys s1_ref s2_ref xw yw dt st k).yslope
        = st.yslope ++ [1]) := by
  unfold computeThermalStep
  dsimp only
  rcases hr : ccosRange time (time.headD 0 + (k : ℚ) * dt)
      (time.headD 0 + (k : ℚ) * dt + dt) with _ | ⟨i, j⟩
  · simp [e1, e2]
  · by_cases hij : j ≤ i
    · simp [hij, e1, e2]
    · have hs1 : findStim (colSlice xs i j) (colSlice ys i j) s1_ref xw yw
          = ⟨none, none, 0, false⟩ := by
        apply findStim_not_found
        intro e he
        rw [colSlice_zip] at he
        exact h1 e (mem_of_mem_colSlice he)
      have hs2 : findStim (colSlice xs i j) (colSlice ys i j) s2_ref xw yw
          = ⟨none, none, 0, false⟩ := by
        apply findStim_not_found
        intro e he
        rw [colSlice_zip] at he
        exact h2 e (mem_of_mem_colSlice he)
      simp [hij, hs1, hs2, e1, e2,
        thermalParam_at_refs s1_ref s2_ref hx hy]

theorem all_eq_append {l : List ℚ} {v : ℚ} (h : ∀ c ∈ l, c = v) :
    ∀ c ∈ l ++ [v], c = v := by
  intro c hc
  rcases List.mem_append.mp hc with hc | hc
  · exact h c hc
  · simpa using hc

/-- Window-loop invariant for C3: when no event of the exposure ever falls
in either stim search box, the hold-last-value positions stay at the
reference positions and every appended window parameter is the identity. -/
theorem thermalFold_identity
    (time xs ys : List ℚ) (s1_ref s2_ref : ℚ × ℚ) (xw yw dt : ℚ)
    (hx : s1_ref.2 ≠ s2_ref.2) (hy : s1_ref.1 ≠ s2_ref.1)
    (h1 : ∀ e ∈ xs.zip ys, inStimBox s1_ref xw yw e = false)
    (h2 : ∀ e ∈ xs.zip ys, inStimBox s2_ref xw yw e = false) :
    ∀ (ks : List ℕ) (st : ThermalState),
      st.last_s1 = s1_ref → st.last_s2 = s2_ref →
      (∀ c ∈ st.x0, c = 0) → (∀ m ∈ st.xslope, m = 1) →
      (∀ c ∈ st.y0, c = 0) → (∀ m ∈ st.yslope, m = 1) →
      ((ks.foldl (computeThermalStep time xs ys s1_ref s2_ref xw yw dt)
          st).last_s1 = s1_ref ∧
       (ks.foldl (computeThermalStep time xs ys s1_ref s2_ref xw yw dt)
          st).last_s2 = s2_ref ∧
       (∀ c ∈ (ks.foldl (computeThermalStep time xs ys s1_ref s2_ref xw yw dt)
          st).x0, c = 0) ∧
       (∀ m ∈ (ks.foldl (computeThermalStep time xs ys s1_ref s2_ref xw yw dt)
          st).xslope, m = 1) ∧
       (∀ c ∈ (ks.foldl (computeThermalStep time xs ys s1_ref s2_ref xw yw dt)
          st).y0, c = 0) ∧
       (∀ m ∈ (ks.foldl (computeThermalStep time xs ys s1_ref s2_ref xw yw dt)
          st).yslope, m = 1)) := by
  intro ks
  induction ks with
  | nil =>
      intro st e1 e2 p1 p2 p3 p4
      exact ⟨e1, e2, p1, p2, p3, p4⟩
  | cons k ks ih =>
      intro st e1 e2 p1 p2 p3 p4
      rw [List.foldl_cons]
      obtain ⟨f1, f2, f3, f4, f5, f6⟩ :=
        computeThermalStep_identity time xs ys s1_ref s2_ref xw yw dt
          hx hy h1 h2 st k e1 e2
      refine ih _ f1 f2 ?_ ?_ ?_ ?_
      · rcases f3 with h | h <;> rw [h]
        · exact p1
        · exact all_eq_append p1
      · rcases f4 with h | h <;> rw [h]
        · exact p2
        · exact all_eq_append p2
      · rcases f5 with h | h <;> rw [h]
        · exact p3
        · exact all_eq_append p3
      · rcases f6 with h | h <;> rw [h]
        · exact p4
        · exact all_eq_append p4

/-- **C3 counterexample.** A concrete exposure in which stim 1 is never
found in any window (no event lies in its search box) while stim 2 is found
displaced from its reference: the hold-last-value policy substitutes stim
1's *reference* position (not `None`), so `thermalParam` does not take its
identity branch and the computed map is not the identity; moreover
`thermalDistortion` does apply a coordinate correction.  This refutes the
claim for "either stim never found". -/
theorem thermal_identity_single_stim_counterexample :
    (∀ e ∈ [(904 : ℚ)].zip [(900 : ℚ)],
        inStimBox ((100 : ℚ), (100 : ℚ)) 5 5 e = false) ∧
    (computeThermalParam [0] [904] [900] ((100 : ℚ), 100) ((900 : ℚ), 900)
        5 5 "TIME-TAG" 100 1 0).stim_param.xslope = [200 / 201] ∧
    ((200 / 201 : ℚ) ≠ 1) ∧
    (thermalDistortion [904] [900]
        (computeThermalParam [0] [904] [900] ((100 : ℚ), 100) ((900 : ℚ), 900)
          5 5 "TIME-TAG" 100 1 0).stim_param).2.2 = true := by
  have hsp : (computeThermalParam [0] [904] [900] ((100 : ℚ), 100)
      ((900 : ℚ), 900) 5 5 "TIME-TAG" 100 1 0).stim_param
      = { i0i1 := some ([0], [1]), x0 := [100 / 201], xslope := [200 / 201],
          y0 := [0], yslope := [1] } := by
    norm_num [computeThermalParam, computeThermalStep, numThermalWindows,
      ccosRange, colSlice, findStim, inStimBox, thermalParam, updateStimSum,
      List.countP_cons, List.countP_nil, List.range_succ, List.filter,
      List.zip, List.zipWith]
  refine ⟨by norm_num [inStimBox, List.zip, List.zipWith], ?_, by norm_num, ?_⟩
  · rw [hsp]
  · rw [hsp]
    norm_num [thermalDistortion, affineSlice, List.range_succ]

/-- **C3 (amended).** If *both* stims were never found in any window of the
entire exposure (no event of the exposure lies in either stim search box),
then every window's thermal-correction affine map is the identity
(slope 1, intercept 0 on both axes) and `thermalDistortion` applies no
coordinate correction to the events.  (The stim reference positions are
distinct on both axes, as they are on the detector.) -/
theorem thermal_identity_when_both_stims_missing
    (time xs ys : List ℚ) (s1_ref s2_ref : ℚ × ℚ) (xw yw : ℚ)
    (obsmode : String) (timestep exptime stimrate : ℚ)
    (hx : s1_ref.2 ≠ s2_ref.2) (hy : s1_ref.1 ≠ s2_ref.1)
    (h1 : ∀ e ∈ xs.zip ys, inStimBox s1_ref xw yw e = false)
    (h2 : ∀ e ∈ xs.zip ys, inStimBox s2_ref xw yw e = false) :
    (∀ c ∈ (computeThermalParam time xs ys s1_ref s2_ref xw yw obsmode
        timestep exptime stimrate).stim_param.x0, c = 0) ∧
    (∀ m ∈ (computeThermalParam time xs ys s1_ref s2_ref xw yw obsmode
        timestep exptime stimrate).stim_param.xslope, m = 1) ∧
    (∀ c ∈ (computeThermalParam time xs ys s1_ref s2_ref xw yw obsmode
        timestep exptime stimrate).stim_param.y0, c = 0) ∧
    (∀ m ∈ (computeThermalParam time xs ys s1_ref s2_ref xw yw obsmode
        timestep exptime stimrate).stim_param.yslope, m = 1) ∧
    thermalDistortion xs ys (computeThermalParam time xs ys s1_ref s2_ref
        xw yw obsmode timestep exptime stimrate).stim_param
      = (xs, ys, false) := by
  have key := thermalFold_identity time xs ys s1_ref s2_ref xw yw
    (if obsmode = "TIME-TAG" then timestep
      else time.getLastD 0 - time.headD 0 + 1)
    hx hy h1 h2
    (List.range (numThermalWindows (time.headD 0) (time.getLastD 0)
      (if obsmode = "TIME-TAG" then timestep
        else time.getLastD 0 - time.headD 0 + 1)))
    { last_s1 := s1_ref, last_s2 := s2_ref,
      i0 := [], i1 := [], x0 := [], xslope := [], y0 := [], yslope := [],
      sums := ⟨0, 0, 0, 0, 0, 0, 0, 0, 0, 0⟩, counts1 := 0, counts2 := 0 }
    rfl rfl (by simp) (by simp) (by simp) (by simp)
  obtain ⟨-, -, k1, k2, k3, k4⟩ := key
  exact ⟨k1, k2, k3, k4, thermalDistortion_id k1 k2 k3 k4⟩

/-- Witness for C3 (amended) at a concrete exposure whose single event lies
in neither stim search box. -/
theorem thermal_identity_when_both_stims_missing_witness :
    ((((100 : ℚ), (100 : ℚ)) : ℚ × ℚ).2 ≠ (((900 : ℚ), (900 : ℚ)) : ℚ × ℚ).2 ∧
     (((100 : ℚ), (100 : ℚ)) : ℚ × ℚ).1 ≠ (((900 : ℚ), (900 : ℚ)) : ℚ × ℚ).1 ∧
     (∀ e ∈ [(500 : ℚ)].zip [(500 : ℚ)],
        inStimBox ((100 : ℚ), 100) 5 5 e = false) ∧
     (∀ e ∈ [(500 : ℚ)].zip [(500 : ℚ)],
        inStimBox ((900 : ℚ), 900) 5 5 e = false)) ∧
    ((∀ c ∈ (computeThermalParam [0] [500] [500] ((100 : ℚ), 100)
        ((900 : ℚ), 900) 5 5 "TIME-TAG" 50 1 2).stim_param.x0, c = 0) ∧
     (∀ m ∈ (computeThermalParam [0] [500] [500] ((100 : ℚ), 100)
        ((900 : ℚ), 900) 5 5 "TIME-TAG" 50 1 2).stim_param.xslope, m = 1) ∧
     (∀ c ∈ (computeThermalParam [0] [500] [500] ((100 : ℚ), 100)
        ((900 : ℚ), 900) 5 5 "TIME-TAG" 50 1 2).stim_param.y0, c = 0) ∧
     (∀ m ∈ (computeThermalParam [0] [500] [500] ((100 : ℚ), 100)
        ((900 : ℚ), 900) 5 5 "TIME-TAG" 50 1 2).stim_param.yslope, m = 1) ∧
     thermalDistortion [500] [500] (computeThermalParam [0] [500] [500]
        ((100 : ℚ), 100) ((900 : ℚ), 900) 5 5 "TIME-TAG" 50 1 2).stim_param
       = ([500], [500], false)) :=
  ⟨⟨by norm_num, by norm_num,
      by norm_num [inStimBox, List.zip, List.zipWith],
      by norm_num [inStimBox, List.zip, List.zipWith]⟩,
    thermal_identity_when_both_stims_missing [0] [500] [500]
      ((100 : ℚ), 100) ((900 : ℚ), 900) 5 5 "TIME-TAG" 50 1 2
      (by norm_num) (by norm_num)
      (by norm_num [inStimBox, List.zip, List.zipWith])
      (by norm_num [inStimBox, List.zip, List.zipWith])⟩

/-! ## Deadtime / livetime correction (`deadtimeCorrection`, timetag.py
lines 1829-2010) -/

/-- Modelled from the spec: `LIVETIME_CRITERION` is the fixed relative
tolerance from the parameter module (not under `src/`); the docstring of
`deadtimeCorrection` describes the test as "the difference between the two
livetime factors is > 10%". -/
def LIVETIME_CRITERION : ℚ := 1 / 10

/-- The count rate measured over the whole exposure: the number of events
divided by the elapsed time, or 0 when the elapsed time is not positive. -/
def actualCountrate (time : List ℚ) : ℚ :=
  if time.headD 0 < time.getLastD 0 then
    (time.length : ℚ) / (time.getLastD 0 - time.headD 0)
  else 0

/-- The disagreement test between the livetime factor from the measured
count rate and the factor from the digital-event-counter rate:
`abs (dec_livetime - actual_rate_livetime)
  > LIVETIME_CRITERION * actual_rate_livetime`. -/
def livetimesDiffer (time : List ℚ) (tbl : List (ℚ × ℚ))
    (dec_countrate : ℚ) : Bool :=
  decide (LIVETIME_CRITERION * determineLivetime (actualCountrate time) tbl <
    |determineLivetime dec_countrate tbl
      - determineLivetime (actualCountrate time) tbl|)

/-- One line of the livetime diagnostic output: window bounds, event index
range, local count rate and livetime factor. -/
structure WindowRec where
  t0 : ℚ
  t1 : ℚ
  i : ℕ
  j : ℕ
  countrate : ℚ
  livetime : ℚ
  deriving Repr, DecidableEq

/-- Loop state of the time-resolved livetime scan: the weight column, the
previous window's factor (`last_livetime`), the not-yet-processed-a-window
flag (`first`), the persistent local count rate variable, and the window
records. -/
structure DeadState where
  epsilon : List ℚ
  last_livetime : ℚ
  first : Bool
  countrate : ℚ
  recs : List WindowRec
  deriving Repr, DecidableEq

/-- Divide the slice `[i, j)` of the weight column by the factor `f`
(`epsilon[i:j] = epsilon[i:j] / livetime`). -/
def slashSlice (eps : List ℚ) (i j : ℕ) (f : ℚ) : List ℚ :=
  eps.mapIdx (fun k a => if i ≤ k ∧ k < j then a / f else a)

/-- The livetime computation for one window of the time-resolved scan:
returns `(countrate, livetime, t1_for_printing)`.  A full window uses its
local rate; the final, partial window uses its own rate over the remaining
time unless it is shorter than half the nominal width and a previous window
exists, in which case the previous factor is reused. -/
def windowLivetime (tbl : List (ℚ × ℚ)) (dt last_time t0 t1 : ℚ)
    (i j : ℕ) (st_first : Bool) (st_countrate st_last_livetime : ℚ) :
    ℚ × ℚ × ℚ :=
  if t1 < last_time then
    let cr := ((j - i : ℕ) : ℚ) / dt
    (cr, determineLivetime cr tbl, t1)
  else if t0 < last_time then
    if last_time - t0 < 1 / 2 * dt ∧ st_first = false then
      (st_countrate, st_last_livetime, last_time)
    else
      let cr := ((j - i : ℕ) : ℚ) / (last_time - t0)
      (cr, determineLivetime cr tbl, last_time)
  else (0, 1, t1)

/-- One iteration of the time-resolved livetime loop for window index `k`
(window `[t0 + k·dt, t0 + (k+1)·dt)`): select the window's events, compute
the window's livetime factor, and divide the window's weights by it when it
is positive. -/
def deadtimeStep (time : List ℚ) (tbl : List (ℚ × ℚ)) (dt last_time : ℚ)
    (st : DeadState) (k : ℕ) : DeadState :=
  let t0 := time.headD 0 + (k : ℚ) * dt
  let t1 := t0 + dt
  match ccosRange time t0 t1 with
  | none => st
  | some (i, j) =>
      if j ≤ i then st
      else
        let r := windowLivetime tbl dt last_time t0 t1 i j st.first
          st.countrate st.last_livetime
        { epsilon := if 0 < r.2.1 then slashSlice st.epsilon i j r.2.1
            else st.epsilon
          last_livetime := if 0 < r.2.1 then r.2.1 else st.last_livetime
          first := false
          countrate := r.1
          recs := st.recs ++ [⟨t0, r.2.2, i, j, r.1, r.2.1⟩] }

/-- Number of iterations of the time-resolved livetime loop: `t0` starts at
`time[0]` and advances by `dt` while `t0 < time[-1]`. -/
def numDeadWindows (t0 last dt : ℚ) : ℕ :=
  ⌈(last - t0) / dt⌉.toNat

/-- The time-resolved livetime scan of `deadtimeCorrection` (the
`use_actual_rate` branch): scan the exposure in windows of width `dt`
(the deadtab `timestep`), compute each window's local livetime factor, and
divide the window's event weights by it. -/
def timeResolvedLivetime (time eps : List ℚ) (tbl : List (ℚ × ℚ))
    (dt : ℚ) : DeadState :=
  (List.range (numDeadWindows (time.headD 0) (time.getLastD 0) dt)).foldl
    (deadtimeStep time tbl dt (time.getLastD 0))
    { epsilon := eps, last_livetime := 1, first := true, countrate := 0,
      recs := [] }

/-- Result of `deadtimeCorrection`: the corrected weight column, the count
rate and method recorded in the output header, and whether the
"livetime estimates differ" warning was printed. -/
structure DeadResult where
  epsilon : List ℚ
  dead_rate : ℚ
  dead_method : String
  warned : Bool

/-- `deadtimeCorrection`: correct the event weights for detector dead time
(TIME-TAG).  Compute one livetime factor from the count rate averaged over
the whole exposure and another from the digital event counter rate; if they
disagree by more than `LIVETIME_CRITERION` (relative) a warning is surfaced
and, when the exposure used subarrays, the single global factor from the
counter rate is applied to every weight; in every other case the
time-resolved scan is applied. -/
def deadtimeCorrection (time eps : List ℚ) (tbl : List (ℚ × ℚ))
    (dec_countrate : ℚ) (subarray : Bool) (nsubarry : ℕ)
    (detector : String) (dt : ℚ) : DeadResult :=
  let dec_livetime := determineLivetime dec_countrate tbl
  let differ := livetimesDiffer time tbl dec_countrate
  let use_actual_rate : Bool :=
    if differ then !(subarray && decide (0 < nsubarry)) else true
  if use_actual_rate then
    { epsilon := (timeResolvedLivetime time eps tbl dt).epsilon
      dead_rate := actualCountrate time
      dead_method := "DATA"
      warned := differ }
  else
    { epsilon := eps.map (fun e => e / dec_livetime)
      dead_rate := dec_countrate
      dead_method := if detector = "FUV" then "DEVENT" else "MEVENTS"
      warned := differ }

/-- **C4.** The FUV time-tag deadtime reconciliation policy: whenever a
livetime table exists and the two factor estimates disagree beyond the
fixed relative tolerance, then (a) if the exposure used subarrays, every
event weight is divided by the single global factor derived from the
digital-event-counter rate (method DEVENT/MEVENTS) and the warning is
surfaced; (b) otherwise the time-resolved per-window scan is still applied
(method DATA) and the warning is surfaced.  Absent disagreement, the
time-resolved method is used and no warning is printed. -/
theorem deadtime_reconciliation_policy
    (time eps : List ℚ) (tbl : List (ℚ × ℚ)) (dec_countrate : ℚ)
    (subarray : Bool) (nsubarry : ℕ) (detector : String) (dt : ℚ)
    (htbl : tbl ≠ []) (htime : time ≠ []) :
    (livetimesDiffer time tbl dec_countrate = true → subarray = true →
      0 < nsubarry →
      (deadtimeCorrection time eps tbl dec_countrate subarray nsubarry
          detector dt).epsilon
        = eps.map (fun e => e / determineLivetime dec_countrate tbl) ∧
      (deadtimeCorrection time eps tbl dec_countrate subarray nsubarry
          detector dt).dead_rate = dec_countrate ∧
      (deadtimeCorrection time eps tbl dec_countrate subarray nsubarry
          detector dt).dead_method
        = (if detector = "FUV" then "DEVENT" else "MEVENTS") ∧
      (deadtimeCorrection time eps tbl dec_countrate subarray nsubarry
          detector dt).warned = true) ∧
    (livetimesDiffer time tbl dec_countrate = true →
      ¬(subarray = true ∧ 0 < nsubarry) →
      (deadtimeCorrection time eps tbl dec_countrate subarray nsubarry
          detector dt).epsilon
        = (timeResolvedLivetime time eps tbl dt).epsilon ∧
      (deadtimeCorrection time eps tbl dec_countrate subarray nsubarry
          detector dt).dead_method = "DATA" ∧
      (deadtimeCorrection time eps tbl dec_countrate subarray nsubarry
          detector dt).warned = true) ∧
    (livetimesDiffer time tbl dec_countrate = false →
      (deadtimeCorrection time eps tbl dec_countrate subarray nsubarry
          detector dt).epsilon
        = (timeResolvedLivetime time eps tbl dt).epsilon ∧
      (deadtimeCorrection time eps tbl dec_countrate subarray nsubarry
          detector dt).dead_method = "DATA" ∧
      (deadtimeCorrection time eps tbl dec_countrate subarray nsubarry
          detector dt).warned = false) := by
  refine ⟨?_, ?_, ?_⟩
  · intro hdiff hsub hn
    unfold deadtimeCorrection
    simp [hdiff, hsub, hn]
  · intro hdiff hnot
    unfold deadtimeCorrection
    cases hsub : subarray with
    | true =>
        have hn0 : nsubarry = 0 := by
          by_contra hnz
          exact hnot ⟨hsub, Nat.pos_of_ne_zero hnz⟩
        simp [hdiff, hn0]
    | false =>
        simp [hdiff]
  · intro hdiff
    unfold deadtimeCorrection
    simp [hdiff]

/-- Witness for C4: a concrete exposure whose two livetime estimates differ
(measured rate 2 → factor 0.9; counter rate 100 → factor 0.5) and which
used a subarray, so the global counter-derived factor is applied. -/
theorem deadtime_reconciliation_policy_witness :
    (([((0 : ℚ), 1), (10, 1/2)] : List (ℚ × ℚ)) ≠ [] ∧
     ([(0 : ℚ), 1] : List ℚ) ≠ [] ∧
     livetimesDiffer [(0 : ℚ), 1] [((0 : ℚ), 1), (10, 1/2)] 100 = true) ∧
    ((deadtimeCorrection [(0 : ℚ), 1] [(1 : ℚ), 1] [((0 : ℚ), 1), (10, 1/2)]
        100 true 1 "FUV" 5).epsilon
      = [(1 : ℚ), 1].map
          (fun e => e / determineLivetime 100 [((0 : ℚ), 1), (10, 1/2)]) ∧
     (deadtimeCorrection [(0 : ℚ), 1] [(1 : ℚ), 1] [((0 : ℚ), 1), (10, 1/2)]
        100 true 1 "FUV" 5).dead_rate = 100 ∧
     (deadtimeCorrection [(0 : ℚ), 1] [(1 : ℚ), 1] [((0 : ℚ), 1), (10, 1/2)]
        100 true 1 "FUV" 5).dead_method
       = (if "FUV" = "FUV" then "DEVENT" else "MEVENTS") ∧
     (deadtimeCorrection [(0 : ℚ), 1] [(1 : ℚ), 1] [((0 : ℚ), 1), (10, 1/2)]
        100 true 1 "FUV" 5).warned = true) := by
  have hdiff : livetimesDiffer [(0 : ℚ), 1] [((0 : ℚ), 1), (10, 1/2)] 100
      = true := by
    norm_num [livetimesDiffer, LIVETIME_CRITERION, actualCountrate,
      determineLivetime, determineLivetimePos, interpLivetime, List.getLastD,
      abs]
  exact ⟨⟨by simp, by simp, hdiff⟩,
    (deadtime_reconciliation_policy [(0 : ℚ), 1] [(1 : ℚ), 1]
      [((0 : ℚ), 1), (10, 1/2)] 100 true 1 "FUV" 5
      (by simp) (by simp)).1 hdiff rfl (by norm_num)⟩

/-- Default window record (used only as the `getD` fallback). -/
def wrec0 : WindowRec := ⟨0, 0, 0, 0, 0, 0⟩

theorem headD_mem {l : List ℚ} (h : l ≠ []) : l.headD 0 ∈ l := by
  rw [List.headD_eq_head?, List.head?_eq_head h]
  exact List.head_mem h

theorem getLastD_mem {l : List ℚ} (h : l ≠ []) : l.getLastD 0 ∈ l := by
  rw [List.getLastD_eq_getLast?, List.getLast?_eq_getLast l h]
  exact List.getLast_mem h

theorem windowLivetime_pos (tbl : List (ℚ × ℚ)) (dt last_time t0 t1 : ℚ)
    (i j : ℕ) (st_first : Bool) (st_countrate st_last_livetime : ℚ)
    (hpos : ∀ r ∈ tbl, 0 < r.2) (hll : 0 < st_last_livetime) :
    0 < (windowLivetime tbl dt last_time t0 t1 i j st_first st_countrate
      st_last_livetime).2.1 := by
  unfold windowLivetime
  split_ifs with hA hB hC
  · exact determineLivetime_pos _ _ hpos
  · exact hll
  · exact determineLivetime_pos _ _ hpos
  · norm_num

/-- Loop invariant of the time-resolved livetime scan (once a window has
been processed): the `first` flag is down, a record exists, and
`last_livetime` is the (positive) factor of the most recent record. -/
def deadInv (st : DeadState) : Prop :=
  st.first = false ∧ st.recs ≠ [] ∧
  st.last_livetime = (st.recs.getLastD wrec0).livetime ∧
  0 < st.last_livetime

theorem deadtimeStep_inv (time : List ℚ) (tbl : List (ℚ × ℚ))
    (dt last_time : ℚ) (hpos : ∀ r ∈ tbl, 0 < r.2)
    (st : DeadState) (k : ℕ) (h : deadInv st) :
    deadInv (deadtimeStep time tbl dt last_time st k) := by
  obtain ⟨h1, h2, h3, h4⟩ := h
  unfold deadtimeStep deadInv
  dsimp only
  rcases ccosRange time (time.headD 0 + (k : ℚ) * dt)
      (time.headD 0 + (k : ℚ) * dt + dt) with _ | ⟨i, j⟩
  · exact ⟨h1, h2, h3, h4⟩
  · dsimp only
    by_cases hij : j ≤ i
    · rw [if_pos hij]
      exact ⟨h1, h2, h3, h4⟩
    · rw [if_neg hij]
      have hlt := windowLivetime_pos tbl dt last_time
        (time.headD 0 + (k : ℚ) * dt) (time.headD 0 + (k : ℚ) * dt + dt)
        i j st.first st.countrate st.last_livetime hpos h4
      refine ⟨rfl, by simp, ?_, ?_⟩
      · simp only [if_pos hlt, List.getLastD_concat]
      · simp only [if_pos hlt]
        exact hlt

/-- The first window of the scan is always processed: the head event lies in
`[t0, t0 + dt)`, so the window selection is nonempty and the invariant is
established. -/
theorem deadtimeStep_first_window (time eps : List ℚ) (tbl : List (ℚ × ℚ))
    (dt : ℚ) (hpos : ∀ r ∈ tbl, 0 < r.2) (hne : time ≠ [])
    (hhead : ∀ t ∈ time, time.headD 0 ≤ t) (hdt : 0 < dt) :
    deadInv (deadtimeStep time tbl dt (time.getLastD 0)
      { epsilon := eps, last_livetime := 1, first := true, countrate := 0,
        recs := [] } 0) := by
  have e0 : time.headD 0 + ((0 : ℕ) : ℚ) * dt = time.headD 0 := by
    push_cast
    ring
  have hi : time.countP
      (fun t => decide (t < time.headD 0 + ((0 : ℕ) : ℚ) * dt)) = 0 := by
    rw [List.countP_eq_zero]
    intro a ha
    simp only [decide_eq_true_eq, not_lt, e0]
    exact hhead a ha
  have hj : 0 < time.countP
      (fun t => decide (t < time.headD 0 + ((0 : ℕ) : ℚ) * dt + dt)) := by
    rw [List.countP_pos_iff]
    refine ⟨time.headD 0, headD_mem hne, ?_⟩
    simp only [decide_eq_true_eq, e0]
    linarith
  have hcc : ccosRange time (time.headD 0 + ((0 : ℕ) : ℚ) * dt)
      (time.headD 0 + ((0 : ℕ) : ℚ) * dt + dt)
      = some (0, time.countP
          (fun t => decide (t < time.headD 0 + ((0 : ℕ) : ℚ) * dt + dt))) := by
    unfold ccosRange
    rw [hi, if_pos hj]
  unfold deadtimeStep deadInv
  dsimp only
  rw [hcc]
  dsimp only
  have hij : ¬ (time.countP
      (fun t => decide (t < time.headD 0 + ((0 : ℕ) : ℚ) * dt + dt)) ≤ 0) := by
    omega
  have hlt := windowLivetime_pos tbl dt (time.getLastD 0)
    (time.headD 0 + ((0 : ℕ) : ℚ) * dt)
    (time.headD 0 + ((0 : ℕ) : ℚ) * dt + dt)
    0 (time.countP
        (fun t => decide (t < time.headD 0 + ((0 : ℕ) : ℚ) * dt + dt)))
    true 0 1 hpos (by norm_num)
  rw [if_neg hij]
  refine ⟨rfl, by simp, ?_, ?_⟩
  · simp only [if_pos hlt, List.getLastD_concat]
  · simp only [if_pos hlt]
    exact hlt

/-- After at least one window, the scan invariant holds. -/
theorem timeResolved_fold_inv (time eps : List ℚ) (tbl : List (ℚ × ℚ))
    (dt : ℚ) (hpos : ∀ r ∈ tbl, 0 < r.2) (hne : time ≠ [])
    (hhead : ∀ t ∈ time, time.headD 0 ≤ t) (hdt : 0 < dt) :
    ∀ n : ℕ, 1 ≤ n →
      deadInv ((List.range n).foldl
        (deadtimeStep time tbl dt (time.getLastD 0))
        { epsilon := eps, last_livetime := 1, first := true, countrate := 0,
          recs := [] }) := by
  intro n hn
  induction n with
  | zero => omega
  | succ n ih =>
      by_cases hn1 : 1 ≤ n
      · rw [List.range_succ, List.foldl_append]
        exact deadtimeStep_inv _ _ _ _ hpos _ _ (ih hn1)
      · have hn0 : n = 0 := by omega
        subst hn0
        have hr1 : List.range 1 = [0] := rfl
        rw [hr1, List.foldl_cons, List.foldl_nil]
        exact deadtimeStep_first_window time eps tbl dt hpos hne hhead hdt

/-- **C5.** In the time-resolved livetime scan, for an exposure whose final
time window is shorter than half the nominal window width `dt` (and which
has more than one window, so a preceding window exists; livetime factors in
the table are positive), the final window's recorded livetime factor equals
the immediately preceding record's factor rather than being computed from
the final window's own local count rate. -/
theorem final_short_window_reuses_previous_livetime
    (time eps : List ℚ) (tbl : List (ℚ × ℚ)) (dt : ℚ)
    (hdt : 0 < dt) (hne : time ≠ [])
    (hpos : ∀ r ∈ tbl, 0 < r.2)
    (hhead : ∀ t ∈ time, time.headD 0 ≤ t)
    (hlastb : ∀ t ∈ time, t ≤ time.getLastD 0)
    (hK : 2 ≤ numDeadWindows (time.headD 0) (time.getLastD 0) dt)
    (hshort : time.getLastD 0
        - (time.headD 0
          + ((numDeadWindows (time.headD 0) (time.getLastD 0) dt - 1 : ℕ) : ℚ)
            * dt)
        < 1 / 2 * dt) :
    2 ≤ (timeResolvedLivetime time eps tbl dt).recs.length ∧
    ((timeResolvedLivetime time eps tbl dt).recs.getLastD wrec0).livetime
      = (((timeResolvedLivetime time eps tbl dt).recs.dropLast).getLastD
          wrec0).livetime := by
  set t0 := time.headD 0 with ht0
  set tl := time.getLastD 0 with htl
  set K := numDeadWindows t0 tl dt with hKdef
  obtain ⟨m, hm⟩ : ∃ m, K = m + 1 := ⟨K - 1, by omega⟩
  have hm1 : K - 1 = m := by omega
  rw [hm1] at hshort
  have hKval : K = (⌈(tl - t0) / dt⌉).toNat := rfl
  have hceil2 : (2 : ℤ) ≤ ⌈(tl - t0) / dt⌉ := by omega
  have hKZ : (K : ℤ) = ⌈(tl - t0) / dt⌉ := by omega
  have hKcast : ((K : ℚ)) = ((⌈(tl - t0) / dt⌉ : ℤ) : ℚ) := by
    exact_mod_cast congrArg (fun z : ℤ => (z : ℚ)) hKZ
  have hmq : ((K : ℚ)) = (m : ℚ) + 1 := by exact_mod_cast hm
  have hxle := Int.le_ceil ((tl - t0) / dt)
  have hxlt := Int.ceil_lt_add_one ((tl - t0) / dt)
  have ht0f_lt : t0 + (m : ℚ) * dt < tl := by
    have h1 : (m : ℚ) < (tl - t0) / dt := by
      have : ((⌈(tl - t0) / dt⌉ : ℤ) : ℚ) < (tl - t0) / dt + 1 := hxlt
      rw [← hKcast, hmq] at this
      linarith
    have h2 := (lt_div_iff hdt).mp h1
    linarith
  have ht1f_ge : tl ≤ t0 + (m : ℚ) * dt + dt := by
    have h1 : (tl - t0) / dt ≤ (K : ℚ) := by
      rw [hKcast]
      exact hxle
    have h2 := (div_le_iff hdt).mp h1
    rw [hmq] at h2
    nlinarith
  have hlast_lt_t1f : tl < t0 + (m : ℚ) * dt + dt := by
    nlinarith [hshort, hdt]
  have hjf : time.countP
      (fun t => decide (t < t0 + (m : ℚ) * dt + dt)) = time.length := by
    rw [List.countP_eq_length]
    intro a ha
    simp only [decide_eq_true_eq]
    exact lt_of_le_of_lt (hlastb a ha) hlast_lt_t1f
  have hif_lt : time.countP
      (fun t => decide (t < t0 + (m : ℚ) * dt)) < time.length := by
    have hle := List.countP_le_length
      (fun t => decide (t < t0 + (m : ℚ) * dt)) (l := time)
    rcases lt_or_eq_of_le hle with h | h
    · exact h
    · exfalso
      rw [List.countP_eq_length] at h
      have hmem := h tl (getLastD_mem hne)
      simp only [decide_eq_true_eq] at hmem
      linarith
  have hcc : ccosRange time (t0 + (m : ℚ) * dt) (t0 + (m : ℚ) * dt + dt)
      = some (time.countP (fun t => decide (t < t0 + (m : ℚ) * dt)),
          time.length) := by
    unfold ccosRange
    dsimp only
    rw [hjf, if_pos hif_lt]
  have hKsplit : List.range K = List.range m ++ [m] := by
    rw [hm, List.range_succ]
  have hfold : timeResolvedLivetime time eps tbl dt
      = deadtimeStep time tbl dt tl
          ((List.range m).foldl (deadtimeStep time tbl dt tl)
            { epsilon := eps, last_livetime := 1, first := true,
              countrate := 0, recs := [] }) m := by
    unfold timeResolvedLivetime
    rw [← ht0, ← htl, ← hKdef, hKsplit, List.foldl_append, List.foldl_cons,
      List.foldl_nil]
  set mid := (List.range m).foldl (deadtimeStep time tbl dt tl)
    { epsilon := eps, last_livetime := 1, first := true, countrate := 0,
      recs := [] } with hmid_def
  obtain ⟨m1, m2, m3, m4⟩ :=
    timeResolved_fold_inv time eps tbl dt hpos hne hhead hdt m (by omega)
  rw [← htl, ← hmid_def] at m1 m2 m3 m4
  have hwl : windowLivetime tbl dt tl (t0 + (m : ℚ) * dt)
      (t0 + (m : ℚ) * dt + dt)
      (time.countP (fun t => decide (t < t0 + (m : ℚ) * dt))) time.length
      mid.first mid.countrate mid.last_livetime
      = (mid.countrate, mid.last_livetime, tl) := by
    unfold windowLivetime
    rw [if_neg (not_lt.mpr ht1f_ge), if_pos ht0f_lt, if_pos ⟨hshort, m1⟩]
  have hij : ¬ (time.length ≤ time.countP
      (fun t => decide (t < t0 + (m : ℚ) * dt))) := by
    omega
  have hrecs : (deadtimeStep time tbl dt tl mid m).recs
      = mid.recs ++ [⟨t0 + (m : ℚ) * dt, tl,
          time.countP (fun t => decide (t < t0 + (m : ℚ) * dt)),
          time.length, mid.countrate, mid.last_livetime⟩] := by
    unfold deadtimeStep
    dsimp only
    rw [← ht0, hcc]
    dsimp only
    rw [if_neg hij, hwl]
  constructor
  · rw [hfold, hrecs, List.length_append]
    have := List.length_pos.mpr m2
    simp only [List.length_cons, List.length_nil]
    omega
  · rw [hfold, hrecs, List.getLastD_concat, List.dropLast_concat]
    exact m3

theorem ceil_eleven_tenths : ⌈(11 / 10 : ℚ)⌉ = 2 := by
  rw [Int.ceil_eq_iff] <;> norm_num

theorem two_toNat : (2 : ℤ).toNat = 2 := rfl

/-- Witness for C5: three events at times 0, 1, 11/5 with window width 2;
the second (final) window `[2, 4)` covers only `11/5 - 2 = 1/5 < 1` seconds,
shorter than half the width. -/
theorem final_short_window_reuses_previous_livetime_witness :
    ((0 : ℚ) < 2 ∧ ([(0 : ℚ), 1, 11/5] : List ℚ) ≠ [] ∧
     (∀ r ∈ [((0 : ℚ), (1/2 : ℚ))], 0 < r.2) ∧
     (∀ t ∈ [(0 : ℚ), 1, 11/5], ([(0 : ℚ), 1, 11/5].headD 0) ≤ t) ∧
     (∀ t ∈ [(0 : ℚ), 1, 11/5], t ≤ ([(0 : ℚ), 1, 11/5].getLastD 0)) ∧
     2 ≤ numDeadWindows ([(0 : ℚ), 1, 11/5].headD 0)
        ([(0 : ℚ), 1, 11/5].getLastD 0) 2 ∧
     ([(0 : ℚ), 1, 11/5].getLastD 0)
        - (([(0 : ℚ), 1, 11/5].headD 0)
          + ((numDeadWindows ([(0 : ℚ), 1, 11/5].headD 0)
              ([(0 : ℚ), 1, 11/5].getLastD 0) 2 - 1 : ℕ) : ℚ) * 2)
        < 1 / 2 * 2) ∧
    (2 ≤ (timeResolvedLivetime [(0 : ℚ), 1, 11/5] [1, 1, 1]
        [((0 : ℚ), 1/2)] 2).recs.length ∧
     ((timeResolvedLivetime [(0 : ℚ), 1, 11/5] [1, 1, 1]
        [((0 : ℚ), 1/2)] 2).recs.getLastD wrec0).livetime
       = (((timeResolvedLivetime [(0 : ℚ), 1, 11/5] [1, 1, 1]
          [((0 : ℚ), 1/2)] 2).recs.dropLast).getLastD wrec0).livetime) :=
  ⟨⟨by norm_num, by simp,
      by intro r hr; rw [List.mem_singleton] at hr; subst hr; norm_num,
      by norm_num [List.headD_cons],
      by norm_num [List.getLastD],
      by norm_num [numDeadWindows, List.headD_cons, List.getLastD,
        ceil_eleven_tenths, two_toNat],
      by norm_num [numDeadWindows, List.headD_cons, List.getLastD,
        ceil_eleven_tenths, two_toNat]⟩,
    final_short_window_reuses_previous_livetime [(0 : ℚ), 1, 11/5] [1, 1, 1]
      [((0 : ℚ), 1/2)] 2 (by norm_num) (by simp)
      (by intro r hr; rw [List.mem_singleton] at hr; subst hr; norm_num)
      (by norm_num [List.headD_cons]) (by norm_num [List.getLastD])
      (by norm_num [numDeadWindows, List.headD_cons, List.getLastD,
        ceil_eleven_tenths, two_toNat])
      (by norm_num [numDeadWindows, List.headD_cons, List.getLastD,
        ceil_eleven_tenths, two_toNat])⟩

theorem length_slashSlice (eps : List ℚ) (i j : ℕ) (f : ℚ) :
    (slashSlice eps i j f).length = eps.length := by
  unfold slashSlice
  exact List.length_mapIdx

theorem slashSlice_getD (eps : List ℚ) (i j k : ℕ) (f : ℚ) :
    (slashSlice eps i j f).getD k 0
      = if i ≤ k ∧ k < j then eps.getD k 0 / f else eps.getD k 0 := by
  unfold slashSlice
  rw [List.getD_eq_getElem?_getD, List.getElem?_mapIdx,
    List.getD_eq_getElem?_getD]
  cases h : eps[k]? with
  | none =>
      simp only [Option.map_none, Option.getD_none]
      split <;> simp
  | some a =>
      simp only [Option.map_some, Option.getD_some]
      split <;> rfl

theorem ccosRange_eq_some {time : List ℚ} {t0 t1 : ℚ} {i j : ℕ}
    (h : ccosRange time t0 t1 = some (i, j)) :
    i = time.countP (fun t => decide (t < t0)) ∧
    j = time.countP (fun t => decide (t < t1)) ∧ i < j := by
  unfold ccosRange at h
  dsimp only at h
  by_cases hc : time.countP (fun t => decide (t < t0))
      < time.countP (fun t => decide (t < t1))
  · rw [if_pos hc] at h
    have h' := Option.some.inj h
    have hi := congrArg Prod.fst h'
    have hj := congrArg Prod.snd h'
    dsimp only at hi hj
    exact ⟨hi.symm, hj.symm, hi ▸ hj ▸ hc⟩
  · rw [if_neg hc] at h
    cases h

theorem countP_lt_mono (time : List ℚ) {a b : ℚ} (hab : a ≤ b) :
    time.countP (fun t => decide (t < a))
      ≤ time.countP (fun t => decide (t < b)) := by
  apply List.countP_mono_left
  intro x _ hx
  simp only [decide_eq_true_eq] at hx ⊢
  linarith

/-- Loop invariant for C10: the weight column keeps its length; every
record's index range ends no later than the events seen so far; on each
record's index range the weights are the original weights divided by the
record's factor exactly when that factor is positive (else unchanged); and
indices belonging to no record are untouched. -/
def epsInv (eps0 time : List ℚ) (dt : ℚ) (k : ℕ) (st : DeadState) : Prop :=
  st.epsilon.length = eps0.length ∧
  (∀ r ∈ st.recs, r.i ≤ r.j ∧
      r.j ≤ time.countP
        (fun t => decide (t < time.headD 0 + (k : ℚ) * dt))) ∧
  (∀ r ∈ st.recs, ∀ idx : ℕ, r.i ≤ idx → idx < r.j →
      st.epsilon.getD idx 0
        = if 0 < r.livetime then eps0.getD idx 0 / r.livetime
          else eps0.getD idx 0) ∧
  (∀ idx : ℕ, (∀ r ∈ st.recs, idx < r.i ∨ r.j ≤ idx) →
      st.epsilon.getD idx 0 = eps0.getD idx 0)

theorem deadtimeStep_epsInv (time eps0 : List ℚ) (tbl : List (ℚ × ℚ))
    (dt last_time : ℚ) (hdt : 0 < dt) (st : DeadState) (k : ℕ)
    (h : epsInv eps0 time dt k st) :
    epsInv eps0 time dt (k + 1) (deadtimeStep time tbl dt last_time st k) := by
  obtain ⟨h1, h2, h3, h4⟩ := h
  have harg : time.headD 0 + (k : ℚ) * dt + dt
      = time.headD 0 + ((k + 1 : ℕ) : ℚ) * dt := by
    push_cast
    ring
  have hmono : time.countP
        (fun t => decide (t < time.headD 0 + (k : ℚ) * dt))
      ≤ time.countP
        (fun t => decide (t < time.headD 0 + ((k + 1 : ℕ) : ℚ) * dt)) := by
    apply countP_lt_mono
    push_cast
    nlinarith
  unfold deadtimeStep
  dsimp only
  rcases hr : ccosRange time (time.headD 0 + (k : ℚ) * dt)
      (time.headD 0 + (k : ℚ) * dt + dt) with _ | ⟨i, j⟩
  · exact ⟨h1, fun r hrr => ⟨(h2 r hrr).1, le_trans (h2 r hrr).2 hmono⟩,
      h3, h4⟩
  · obtain ⟨hi, hj, hij⟩ := ccosRange_eq_some hr
    dsimp only
    rw [if_neg (by omega)]
    set lt := (windowLivetime tbl dt last_time (time.headD 0 + (k : ℚ) * dt)
      (time.headD 0 + (k : ℚ) * dt + dt) i j st.first st.countrate
      st.last_livetime).2.1 with hlt_def
    have hrecs_j : ∀ r ∈ st.recs, r.j ≤ i := by
      intro r hrr
      rw [hi]
      exact (h2 r hrr).2
    have heps' : ∀ idx : ℕ,
        (if 0 < lt then slashSlice st.epsilon i j lt
          else st.epsilon).getD idx 0
        = if i ≤ idx ∧ idx < j ∧ 0 < lt then st.epsilon.getD idx 0 / lt
          else st.epsilon.getD idx 0 := by
      intro idx
      by_cases hpos : 0 < lt
      · rw [if_pos hpos, slashSlice_getD]
        by_cases hin : i ≤ idx ∧ idx < j
        · rw [if_pos hin, if_pos ⟨hin.1, hin.2, hpos⟩]
        · rw [if_neg hin, if_neg (by tauto)]
      · rw [if_neg hpos, if_neg (by tauto)]
    refine ⟨?_, ?_, ?_, ?_⟩
    · by_cases hpos : 0 < lt
      · rw [if_pos hpos, length_slashSlice]
        exact h1
      · rw [if_neg hpos]
        exact h1
    · intro r hrr
      rcases List.mem_append.mp hrr with hrr | hrr
      · exact ⟨(h2 r hrr).1, le_trans (h2 r hrr).2 hmono⟩
      · rw [List.mem_singleton] at hrr
        subst hrr
        refine ⟨le_of_lt hij, ?_⟩
        rw [hj, ← harg]
    · intro r hrr idx hlo hhi
      rcases List.mem_append.mp hrr with hrr | hrr
      · -- an old record: its slice is below i, untouched by this window
        have hout : ¬ (i ≤ idx ∧ idx < j ∧ 0 < lt) := by
          intro ⟨ha, _, _⟩
          have := hrecs_j r hrr
          omega
        rw [heps' idx, if_neg hout]
        exact h3 r hrr idx hlo hhi
      · rw [List.mem_singleton] at hrr
        subst hrr
        dsimp only at hlo hhi ⊢
        have hfresh : st.epsilon.getD idx 0 = eps0.getD idx 0 := by
          apply h4
          intro r hrr
          right
          have := hrecs_j r hrr
          omega
        rw [heps' idx]
        by_cases hpos : 0 < lt
        · rw [if_pos ⟨hlo, hhi, hpos⟩, if_pos hpos, hfresh]
        · rw [if_neg (by tauto), if_neg hpos]
          exact hfresh
    · intro idx havoid
      have havoid_old : ∀ r ∈ st.recs, idx < r.i ∨ r.j ≤ idx := by
        intro r hrr
        exact havoid r (List.mem_append.mpr (Or.inl hrr))
      have havoid_new := havoid _ (List.mem_append.mpr (Or.inr
        (List.mem_singleton.mpr rfl)))
      dsimp only at havoid_new
      have hout : ¬ (i ≤ idx ∧ idx < j ∧ 0 < lt) := by
        intro ⟨ha, hb, _⟩
        omega
      rw [heps' idx, if_neg hout]
      exact h4 idx havoid_old

theorem timeResolved_epsInv (time eps0 : List ℚ) (tbl : List (ℚ × ℚ))
    (dt last_time : ℚ) (hdt : 0 < dt) :
    ∀ n : ℕ, epsInv eps0 time dt n
      ((List.range n).foldl (deadtimeStep time tbl dt last_time)
        { epsilon := eps0, last_livetime := 1, first := true, countrate := 0,
          recs := [] }) := by
  intro n
  induction n with
  | zero =>
      refine ⟨rfl, ?_, ?_, ?_⟩ <;> simp [epsInv]
  | succ n ih =>
      rw [List.range_succ, List.foldl_append, List.foldl_cons, List.foldl_nil]
      exact deadtimeStep_epsInv time eps0 tbl dt last_time hdt _ n ih

/-- **C10.** In the time-resolved deadtime loop, the per-window division of
the event weights is guarded: the weight column keeps its length, and for
every window record, the weights at the window's event indices are divided
by the window's livetime factor exactly when that factor is strictly
positive — a window whose factor is not positive leaves its weights
unchanged — while indices belonging to no window are never touched. -/
theorem livetime_division_guarded (time eps : List ℚ) (tbl : List (ℚ × ℚ))
    (dt : ℚ) (hdt : 0 < dt) :
    (timeResolvedLivetime time eps tbl dt).epsilon.length = eps.length ∧
    (∀ r ∈ (timeResolvedLivetime time eps tbl dt).recs, ∀ idx : ℕ,
        r.i ≤ idx → idx < r.j →
        (timeResolvedLivetime time eps tbl dt).epsilon.getD idx 0
          = if 0 < r.livetime then eps.getD idx 0 / r.livetime
            else eps.getD idx 0) ∧
    (∀ idx : ℕ, (∀ r ∈ (timeResolvedLivetime time eps tbl dt).recs,
        idx < r.i ∨ r.j ≤ idx) →
      (timeResolvedLivetime time eps tbl dt).epsilon.getD idx 0
        = eps.getD idx 0) := by
  obtain ⟨h1, _, h3, h4⟩ := timeResolved_epsInv time eps tbl dt
    (time.getLastD 0) hdt
    (numDeadWindows (time.headD 0) (time.getLastD 0) dt)
  exact ⟨h1, h3, h4⟩

/-- Witness for C10 at a concrete two-event exposure. -/
theorem livetime_division_guarded_witness :
    ((0 : ℚ) < 2) ∧
    ((timeResolvedLivetime [(0 : ℚ), 1] [(2 : ℚ), 4]
        [((0 : ℚ), (1/2 : ℚ))] 2).epsilon.length = [(2 : ℚ), 4].length ∧
     (∀ r ∈ (timeResolvedLivetime [(0 : ℚ), 1] [(2 : ℚ), 4]
          [((0 : ℚ), (1/2 : ℚ))] 2).recs, ∀ idx : ℕ,
        r.i ≤ idx → idx < r.j →
        (timeResolvedLivetime [(0 : ℚ), 1] [(2 : ℚ), 4]
            [((0 : ℚ), (1/2 : ℚ))] 2).epsilon.getD idx 0
          = if 0 < r.livetime then [(2 : ℚ), 4].getD idx 0 / r.livetime
            else [(2 : ℚ), 4].getD idx 0) ∧
     (∀ idx : ℕ, (∀ r ∈ (timeResolvedLivetime [(0 : ℚ), 1] [(2 : ℚ), 4]
          [((0 : ℚ), (1/2 : ℚ))] 2).recs, idx < r.i ∨ r.j ≤ idx) →
        (timeResolvedLivetime [(0 : ℚ), 1] [(2 : ℚ), 4]
            [((0 : ℚ), (1/2 : ℚ))] 2).epsilon.getD idx 0
          = [(2 : ℚ), 4].getD idx 0)) :=
  ⟨by norm_num,
    livetime_division_guarded [(0 : ℚ), 1] [(2 : ℚ), 4]
      [((0 : ℚ), (1/2 : ℚ))] 2 (by norm_num)⟩

/-! ## Bad-time flagging (`filterByTime` lines 376-420, `flag_gti`
lines 2529-2553) -/

/-- Modelled from the spec: seconds per day (`SEC_PER_DAY` from the
parameter module, which is not under `src/`). -/
def SEC_PER_DAY : ℚ := 86400

/-- Modelled from the spec: the "bad time" data-quality flag bit
(`DQ_BAD_TIME` from the parameter module, which is not under `src/`); only
its being a fixed nonzero bit matters here. -/
def DQ_BAD_TIME : ℕ := 128

/-- `filterByTime`: convert each badttab row (MJD) to seconds since
`expstart` and OR the `DQ_BAD_TIME` flag into the DQ column of every event
whose time `t` satisfies `start ≤ t ≤ stop` (the source tests
`time >= start[i]` and `time <= stop[i]`).  The rows passed in are those
already selected for the segment by the table lookup.  Returns the updated
DQ column and the converted interval list. -/
def filterByTime (time : List ℚ) (dq : List ℕ) (badtTable : List (ℚ × ℚ))
    (expstart : ℚ) : List ℕ × List (ℚ × ℚ) :=
  let badt := badtTable.map (fun r =>
    ((r.1 - expstart) * SEC_PER_DAY, (r.2 - expstart) * SEC_PER_DAY))
  let dqOut := badt.foldl
    (fun d b => d.zipWith
      (fun dk t => dk ||| (if b.1 ≤ t ∧ t ≤ b.2 then DQ_BAD_TIME else 0))
      time) dq
  (dqOut, badt)

/-- One good time interval of `flag_gti`'s loop: look up the index range of
the events inside `[g.1, g.2 + SMALL_INCR]` with the raising `ccos.range`
(`none` models the propagated exception) and clear the `DQ_BAD_TIME` bit on
those events. -/
def flagGtiStep (time : List ℚ) (g : ℚ × ℚ) (d : List ℕ) :
    Option (List ℕ) :=
  match ccosRange time g.1 (g.2 + 1 / 50) with
  | none => none
  | some (i0, i1) =>
      some (d.mapIdx (fun k x =>
        if i0 ≤ k ∧ k < i1 then Nat.ldiff x DQ_BAD_TIME else x))

/-- `flag_gti`: set `DQ_BAD_TIME` on every event and then clear it on the
events inside each good time interval (extended by `SMALL_INCR = 0.02 s`).
The early returns leave the column untouched.  The interval lookup is the
raising `ccos.range`; an empty match propagates as an exception in the
source, modelled by `none`. -/
def flag_gti (time : List ℚ) (dq : List ℕ) (gti : List (ℚ × ℚ)) :
    Option (List ℕ) :=
  if gti.length < 1 ∨ time.length < 1 then some dq
  else if gti.length = 1 ∧ (gti.headD (0, 0)).1 ≤ time.headD 0 ∧
      time.getLastD 0 ≤ (gti.headD (0, 0)).2 then some dq
  else
    gti.foldl (fun acc g => acc.bind (flagGtiStep time g))
      (some (dq.map (fun x => x ||| DQ_BAD_TIME)))

/-- **C6 counterexample.** An event exactly at the stop of a bad interval:
the (converted) bad interval is `[0, 5]` and the event time is 5; under the
half-open reading `[0, 5)` the event is outside the interval, yet
`filterByTime` sets its bad-time flag, because the source tests
`time <= stop`. -/
theorem filterByTime_at_stop_counterexample :
    (filterByTime [(5 : ℚ)] [0] [((0 : ℚ), 5 / 86400)] 0).2
      = [((0 : ℚ), 5)] ∧
    ¬ ((0 : ℚ) ≤ 5 ∧ (5 : ℚ) < 5) ∧
    (filterByTime [(5 : ℚ)] [0] [((0 : ℚ), 5 / 86400)] 0).1
      = [DQ_BAD_TIME] ∧
    DQ_BAD_TIME ≠ 0 := by
  refine ⟨?_, by norm_num, ?_, by norm_num [DQ_BAD_TIME]⟩
  · norm_num [filterByTime, SEC_PER_DAY]
  · norm_num [filterByTime, SEC_PER_DAY, List.zipWith, DQ_BAD_TIME]

theorem length_zipWith_or (time : List ℚ) (b : ℚ × ℚ) (d : List ℕ)
    (h : d.length = time.length) :
    (d.zipWith
      (fun dk t => dk ||| (if b.1 ≤ t ∧ t ≤ b.2 then DQ_BAD_TIME else 0))
      time).length = time.length := by
  rw [List.length_zipWith, h, min_self]

theorem getD_zipWith_or (b : ℚ × ℚ) :
    ∀ (d : List ℕ) (time : List ℚ) (k : ℕ), d.length = time.length →
      k < time.length →
      (d.zipWith
        (fun dk t => dk ||| (if b.1 ≤ t ∧ t ≤ b.2 then DQ_BAD_TIME else 0))
        time).getD k 0
      = d.getD k 0 |||
          (if b.1 ≤ time.getD k 0 ∧ time.getD k 0 ≤ b.2 then DQ_BAD_TIME
            else 0)
  | [], [], k, _, hk => by simp at hk
  | [], t :: ts, k, hlen, _ => by simp at hlen
  | x :: xs, [], k, hlen, _ => by simp at hlen
  | x :: xs, t :: ts, 0, _, _ => by simp
  | x :: xs, t :: ts, (k + 1), hlen, hk => by
      simp only [List.zipWith_cons_cons, List.getD_cons_succ]
      exact getD_zipWith_or b xs ts k (by simpa using hlen) (by simpa using hk)

theorem or_flag_fold (time : List ℚ) :
    ∀ (badt : List (ℚ × ℚ)) (d : List ℕ), d.length = time.length →
      ((badt.foldl
        (fun d b => d.zipWith
          (fun dk t => dk ||| (if b.1 ≤ t ∧ t ≤ b.2 then DQ_BAD_TIME else 0))
          time) d).length = time.length ∧
      ∀ k : ℕ, k < time.length →
        (badt.foldl
          (fun d b => d.zipWith
            (fun dk t =>
              dk ||| (if b.1 ≤ t ∧ t ≤ b.2 then DQ_BAD_TIME else 0))
            time) d).getD k 0
        = d.getD k 0 |||
            (if ∃ b ∈ badt, b.1 ≤ time.getD k 0 ∧ time.getD k 0 ≤ b.2
              then DQ_BAD_TIME else 0)) := by
  intro badt
  induction badt with
  | nil =>
      intro d hlen
      refine ⟨hlen, ?_⟩
      intro k _
      simp
  | cons b badt ih =>
      intro d hlen
      rw [List.foldl_cons]
      obtain ⟨hl, hget⟩ := ih _ (length_zipWith_or time b d hlen)
      refine ⟨hl, ?_⟩
      intro k hk
      rw [hget k hk, getD_zipWith_or b d time k hlen hk]
      by_cases hb : b.1 ≤ time.getD k 0 ∧ time.getD k 0 ≤ b.2 <;>
        by_cases hrest : ∃ x ∈ badt,
          x.1 ≤ time.getD k 0 ∧ time.getD k 0 ≤ x.2
      · rw [if_pos hb, if_pos hrest, if_pos ⟨b, List.mem_cons_self b badt, hb⟩,
          Nat.or_assoc, Nat.or_self]
      · rw [if_pos hb, if_neg hrest, if_pos ⟨b, List.mem_cons_self b badt, hb⟩,
          Nat.or_assoc, Nat.or_zero]
      · rw [if_neg hb, if_pos hrest, Nat.or_zero]
        rw [if_pos (by
          obtain ⟨x, hx, hxc⟩ := hrest
          exact ⟨x, List.mem_cons_of_mem b hx, hxc⟩)]
      · rw [if_neg hb, if_neg hrest, Nat.or_zero, Nat.or_zero]
        rw [if_neg (by
          rintro ⟨x, hx, hxc⟩
          rcases List.mem_cons.mp hx with hx | hx
          · exact hb (hx ▸ hxc)
          · exact hrest ⟨x, hx, hxc⟩), Nat.or_zero]

theorem flagGtiStep_length (time : List ℚ) (g : ℚ × ℚ) (d d' : List ℕ) :
    flagGtiStep time g d = some d' → d'.length = d.length := by
  unfold flagGtiStep
  rcases hr : ccosRange time g.1 (g.2 + 1 / 50) with _ | ⟨i0, i1⟩
  · intro hd
    simp at hd
  · intro hd
    rw [← Option.some.inj hd, List.length_mapIdx]

theorem flag_gti_fold_length (time : List ℚ) (gti : List (ℚ × ℚ)) :
    ∀ (acc : Option (List ℕ)) (n : ℕ),
      (∀ d, acc = some d → d.length = n) →
      ∀ d', (gti.foldl (fun acc g => acc.bind (flagGtiStep time g)) acc)
          = some d' → d'.length = n := by
  induction gti with
  | nil =>
      intro acc n hacc d' hd'
      exact hacc d' hd'
  | cons g gti ih =>
      intro acc n hacc d' hd'
      rw [List.foldl_cons] at hd'
      refine ih _ n ?_ d' hd'
      intro d hd
      cases acc with
      | none => simp at hd
      | some d0 =>
          rw [flagGtiStep_length time g d0 d hd]
          exact hacc d0 rfl

/-- **C6 (amended).** The bad-time filter sets the bad-time data-quality
flag by bitwise OR exactly for the events whose time lies within a bad
interval, where the intervals are *closed* `[start, stop]`
(`start ≤ t ≤ stop`); and no event row is ever removed by time filtering:
`filterByTime` and `flag_gti` both return a DQ column of the original
length and never touch the time column. -/
theorem badtime_flagging_closed_intervals
    (time : List ℚ) (dq : List ℕ) (badtTable : List (ℚ × ℚ)) (expstart : ℚ)
    (hlen : dq.length = time.length) :
    (filterByTime time dq badtTable expstart).1.length = time.length ∧
    (∀ k : ℕ, k < time.length →
      (filterByTime time dq badtTable expstart).1.getD k 0
        = dq.getD k 0 |||
          (if ∃ b ∈ (filterByTime time dq badtTable expstart).2,
              b.1 ≤ time.getD k 0 ∧ time.getD k 0 ≤ b.2
            then DQ_BAD_TIME else 0)) ∧
    (∀ (gti : List (ℚ × ℚ)) (d' : List ℕ),
      flag_gti time dq gti = some d' → d'.length = dq.length) := by
  obtain ⟨hl, hget⟩ := or_flag_fold time
    (badtTable.map (fun r =>
      ((r.1 - expstart) * SEC_PER_DAY, (r.2 - expstart) * SEC_PER_DAY)))
    dq hlen
  refine ⟨hl, hget, ?_⟩
  intro gti d' hd'
  unfold flag_gti at hd'
  by_cases h1 : gti.length < 1 ∨ time.length < 1
  · rw [if_pos h1] at hd'
    rw [Option.some.inj hd']
  · rw [if_neg h1] at hd'
    by_cases h2 : gti.length = 1 ∧ (gti.headD (0, 0)).1 ≤ time.headD 0 ∧
        time.getLastD 0 ≤ (gti.headD (0, 0)).2
    · rw [if_pos h2] at hd'
      rw [Option.some.inj hd']
    · rw [if_neg h2] at hd'
      refine flag_gti_fold_length time gti _ dq.length ?_ d' hd'
      intro d hd
      rw [← Option.some.inj hd, List.length_map]

/-- Witness for the closed-interval flagging characterization at a
concrete one-event table. -/
theorem badtime_flagging_closed_intervals_witness :
    ([0] : List ℕ).length = [(1 : ℚ)].length ∧
    ((filterByTime [(1 : ℚ)] [0] [((0 : ℚ), (1 : ℚ))] 0).1.length
        = [(1 : ℚ)].length ∧
    (∀ k : ℕ, k < [(1 : ℚ)].length →
      (filterByTime [(1 : ℚ)] [0] [((0 : ℚ), (1 : ℚ))] 0).1.getD k 0
        = ([0] : List ℕ).getD k 0 |||
          (if ∃ b ∈ (filterByTime [(1 : ℚ)] [0] [((0 : ℚ), (1 : ℚ))] 0).2,
              b.1 ≤ [(1 : ℚ)].getD k 0 ∧ [(1 : ℚ)].getD k 0 ≤ b.2
            then DQ_BAD_TIME else 0)) ∧
    (∀ (gti : List (ℚ × ℚ)) (d' : List ℕ),
      flag_gti [(1 : ℚ)] [0] gti = some d' →
        d'.length = ([0] : List ℕ).length)) :=
  ⟨rfl, badtime_flagging_closed_intervals [(1 : ℚ)] [0]
    [((0 : ℚ), (1 : ℚ))] 0 rfl⟩


/-! ## The orchestrator (`timetagBasicCalibration` lines 36-194) and the
output images (`writeNull` lines 2221-2245, `writeImages` lines 2247-2326).

The events table of the input file: one entry per event, each field a
column (time, raw/corrected coordinates, pulse height, data quality,
weight).  The stages below mutate columns in place in the source; here
each stage returns the updated table.  Stages whose column arithmetic
lives in repository code outside `src/` (the burst filter, the geometric
distortion, the Doppler shift, the flat field, the wavecal shifts,
`ccos.applydq`) are passed in as function-valued reference data, applied
to exactly the columns the source reads and writes. -/

structure EventTable where
  time : List ℚ
  xcorr : List ℚ
  ycorr : List ℚ
  xdopp : List ℚ
  xfull : List ℚ
  yfull : List ℚ
  pha : List ℕ
  dq : List ℕ
  epsilon : List ℚ

/-- Header keywords and values (the `info` dictionary). -/
structure CalInfo where
  detector : String
  segment : String
  obsmode : String
  obstype : String
  expstart : ℚ
  exptime : ℚ
  stimrate : ℚ
  dec_countrate : ℚ
  subarray : Bool
  nsubarry : ℕ
  x_offset : ℕ

/-- Calibration switches (the `switches` dictionary). -/
structure CalSwitches where
  brstcorr : String
  badtcorr : String
  phacorr : String
  randcorr : String
  tempcorr : String
  geocorr : String
  doppcorr : String
  deadcorr : String
  flatcorr : String
  wavecorr : String
  dqicorr : String

/-- Modelled from the spec: the "burst" data-quality flag bit (from the
parameter module, not under `src/`). -/
def DQ_BURST : ℕ := 64

/-- Modelled from the spec: the low pulse-height data-quality flag bit
(from the parameter module, not under `src/`). -/
def DQ_PH_LOW : ℕ := 256

/-- Modelled from the spec: the high pulse-height data-quality flag bit
(from the parameter module, not under `src/`). -/
def DQ_PH_HIGH : ℕ := 512

/-- Reference data: table contents, and the column transformations whose
code lives outside `src/` (each given access to exactly the columns the
source passes it).  `rn1`/`rn2` are the streams of pseudo-random draws of
the seeded uniform generator used by `doRandcorr`. -/
structure RefData where
  brf : ℚ × ℚ × ℚ × ℚ
  brf_timestep : ℚ
  stim1_ref : ℚ × ℚ
  stim2_ref : ℚ × ℚ
  stim_xwidth : ℚ
  stim_ywidth : ℚ
  pha_low : ℕ
  pha_high : ℕ
  badtTable : List (ℚ × ℚ)
  deadtab : List (ℚ × ℚ)
  dead_timestep : ℚ
  gtiTable : List (ℚ × ℚ)
  rn1 : List ℚ
  rn2 : List ℚ
  burstFilter : List ℚ → List ℚ → List ℕ → List ℕ × List (ℚ × ℚ)
  geoCorrect : List ℚ → List ℚ → List ℚ × List ℚ
  doppRegion : List ℚ → List Bool
  dopplerShift : ℚ → ℚ → ℚ
  flatField : ℚ → ℚ → ℚ
  wavecalApply : EventTable → List ℚ × List ℚ
  applyDq : List ℚ → List ℚ → List ℕ → List ℕ
  dqArray : Option (ℕ → ℕ → ℕ)
  accumDead : List ℚ → List ℚ

/-- `setActiveArea` (lines 214-249): the Boolean flags marking the events
inside the FUV active area, shrunk by a 2-pixel margin on every side
(`brf = (b_low, b_high, b_left, b_right)`); all True for NUV. -/
def setActiveArea (et : EventTable) (detector : String)
    (brf : ℚ × ℚ × ℚ × ℚ) : List Bool :=
  if detector = "FUV" then
    (et.xcorr.zip et.ycorr).map (fun e =>
      decide (brf.2.2.1 + 2 ≤ e.1 ∧ e.1 ≤ brf.2.2.2 - 2 ∧
        brf.1 + 2 ≤ e.2 ∧ e.2 ≤ brf.2.1 - 2))
  else List.replicate et.xcorr.length true

/-- `doBurstcorr` (lines 305-341): for FUV with BRSTCORR PERFORM, the burst
filter updates the DQ column (from time, ycorr, dq) and returns the burst
intervals; otherwise `bursts = None`, modelled as the empty list
(`recomputeGTI` treats `None` and `[]` alike). -/
def doBurstcorr (et : EventTable) (segment brstcorr : String)
    (burstFilter : List ℚ → List ℚ → List ℕ → List ℕ × List (ℚ × ℚ)) :
    EventTable × List (ℚ × ℚ) :=
  if segment.take 3 = "FUV" ∧ brstcorr = "PERFORM" then
    let r := burstFilter et.time et.ycorr et.dq
    ({ et with dq := r.1 }, r.2)
  else (et, [])

/-- `doBadtcorr` (lines 343-374): for BADTCORR PERFORM, run `filterByTime`
on the time and DQ columns; otherwise `badt = []`. -/
def doBadtcorr (et : EventTable) (badtcorr : String)
    (badtTable : List (ℚ × ℚ)) (expstart : ℚ) : EventTable × List (ℚ × ℚ) :=
  if badtcorr = "PERFORM" then
    let r := filterByTime et.time et.dq badtTable expstart
    ({ et with dq := r.1 }, r.2)
  else (et, [])

/-- `recomputeExptime` (lines 422-469): take the GTI table of the raw file
(or a single interval spanning the time column when there is none),
subtract the burst and bad-time intervals, and return the new good time
intervals with the recomputed exposure time (their total duration). -/
def recomputeExptime (gtiTable : List (ℚ × ℚ)) (bursts badt : List (ℚ × ℚ))
    (time : List ℚ) : List (ℚ × ℚ) × ℚ :=
  let gti0 := if gtiTable.length ≤ 0 then [(time.headD 0, time.getLastD 0)]
    else gtiTable
  let gti := recomputeGTI (recomputeGTI gti0 bursts) badt
  (gti, duration gti)

/-- `filterByPulseHeight` (lines 535-597): OR the low / high pulse-height
flags into the DQ column for active-area events whose pulse height is
below `low` / above `high` (the table's llt/ult thresholds). -/
def filterByPulseHeight (pha dq : List ℕ) (low high : ℕ)
    (active : List Bool) : List ℕ :=
  let dq1 := (dq.zip (pha.zip active)).map (fun e =>
    e.1 ||| (if e.2.2 && decide (e.2.1 < low) then DQ_PH_LOW else 0))
  (dq1.zip (pha.zip active)).map (fun e =>
    e.1 ||| (if e.2.2 && decide (high < e.2.1) then DQ_PH_HIGH else 0))

/-- `doPhacorr` (lines 507-533): the pulse-height screening, FUV TIME-TAG
only (the ACCUM branch checks a histogram file and touches no column). -/
def doPhacorr (et : EventTable) (detector phacorr obsmode : String)
    (low high : ℕ) (active : List Bool) : EventTable :=
  if detector = "FUV" ∧ phacorr = "PERFORM" ∧ obsmode = "TIME-TAG" then
    { et with dq := filterByPulseHeight et.pha et.dq low high active }
  else et

/-- `doRandcorr` (lines 674-703): for FUV with RANDCORR PERFORM, subtract
one pseudo-random draw from each coordinate of every active-area event. -/
def doRandcorr (et : EventTable) (detector randcorr : String)
    (active : List Bool) (rn1 rn2 : List ℚ) : EventTable :=
  if detector = "FUV" ∧ randcorr = "PERFORM" then
    { et with
      xcorr := ((et.xcorr.zip active).zip rn1).map
        (fun e => if e.1.2 then e.1.1 - e.2 else e.1.1),
      ycorr := ((et.ycorr.zip active).zip rn2).map
        (fun e => if e.1.2 then e.1.1 - e.2 else e.1.1) }
  else et

/-- `initTempcorr` (lines 705-737): for FUV with TEMPCORR or DEADCORR set
to PERFORM, compute the thermal-distortion parameters (to be used later);
otherwise the empty parameter dictionary with `stim_countrate = 0` and
`stim_livetime = 1`.  Reads columns only. -/
def initTempcorr (et : EventTable) (detector tempcorr deadcorr : String)
    (s1_ref s2_ref : ℚ × ℚ) (xwidth ywidth : ℚ) (obsmode : String)
    (timestep exptime stimrate : ℚ) : StimParam × ℚ × ℚ :=
  if detector = "FUV" ∧ (tempcorr = "PERFORM" ∨ deadcorr = "PERFORM") then
    let r := computeThermalParam et.time et.xcorr et.ycorr s1_ref s2_ref
      xwidth ywidth obsmode timestep exptime stimrate
    (r.stim_param, r.stim_countrate.getD 0, r.stim_livetime)
  else ({ i0i1 := none, x0 := [], xslope := [], y0 := [], yslope := [] },
    0, 1)

/-- The `doTempcorr` call of the orchestrator: update the coordinate
columns (the recorded switch state is header metadata). -/
def stageTempcorr (et : EventTable) (sp : StimParam)
    (detector tempcorr : String) : EventTable :=
  let r := doTempcorr sp et.xcorr et.ycorr detector tempcorr
  { et with xcorr := r.2.1, ycorr := r.2.2 }

/-- `doGeocorr` (lines 1220-1241): for FUV with GEOCORR PERFORM, the
geometric distortion correction updates both coordinate columns. -/
def doGeocorr (et : EventTable) (detector geocorr : String)
    (geoCorrect : List ℚ → List ℚ → List ℚ × List ℚ) : EventTable :=
  if detector = "FUV" ∧ geocorr = "PERFORM" then
    let r := geoCorrect et.xcorr et.ycorr
    { et with xcorr := r.1, ycorr := r.2 }
  else et

/-- `copyColumns` (lines 2862-2883): copy xcorr to xdopp and xfull and
ycorr to yfull, as default values. -/
def copyColumns (et : EventTable) : EventTable :=
  { et with xdopp := et.xcorr, xfull := et.xcorr, yfull := et.ycorr }

/-- `doDoppcorr` (lines 1381-1436): nothing for ACCUM (done on board); for
DOPPCORR PERFORM write into xdopp the Doppler-corrected xcorr for the
events inside the spectral regions (region flags computed from ycorr) and
xcorr elsewhere, then copy xdopp to xfull.  The FUV single-region and NUV
per-stripe cases are both instances of region flags plus a per-event
shift. -/
def doDoppcorr (et : EventTable) (obsmode doppcorr : String)
    (doppRegion : List ℚ → List Bool) (dopplerShift : ℚ → ℚ → ℚ) :
    EventTable :=
  if obsmode = "ACCUM" then et
  else if doppcorr = "PERFORM" then
    let dopp := ((et.time.zip et.xcorr).zip (doppRegion et.ycorr)).map
      (fun e => if e.2 then dopplerShift e.1.1 e.1.2 else e.1.2)
    { et with xdopp := dopp, xfull := dopp }
  else et

/-- `doDeadcorr` (lines 1788-1827): for DEADCORR PERFORM, apply the
TIME-TAG `deadtimeCorrection` (or the ACCUM variant) to the weights. -/
def doDeadcorr (et : EventTable) (deadcorr obsmode detector : String)
    (deadtab : List (ℚ × ℚ)) (dec_countrate : ℚ) (subarray : Bool)
    (nsubarry : ℕ) (dt : ℚ) (accumDead : List ℚ → List ℚ) : EventTable :=
  if deadcorr = "PERFORM" then
    if obsmode = "TIME-TAG" then
      { et with epsilon := (deadtimeCorrection et.time et.epsilon deadtab
          dec_countrate subarray nsubarry detector dt).epsilon }
    else { et with epsilon := accumDead et.epsilon }
  else et

/-- `doFlatcorr` (lines 1704-1746): for FLATCORR PERFORM, divide each
event weight by the flat field at the event's coordinates
(`ccos.applyflat`). -/
def doFlatcorr (et : EventTable) (flatcorr : String)
    (flatField : ℚ → ℚ → ℚ) : EventTable :=
  if flatcorr = "PERFORM" then
    let eps := ((et.xcorr.zip et.ycorr).zip et.epsilon).map
      (fun e => e.2 / flatField e.1.1 e.1.2)
    { et with epsilon := eps }
  else et

/-- The wavecal step of the orchestrator (lines 160-172 and
`updateFromWavecal` lines 2555-2698): for spectroscopic data with WAVECORR
PERFORM, write the shifted coordinates into xfull and yfull (the only
columns `updateFromWavecal` assigns). -/
def doWavecal (et : EventTable) (obstype wavecorr : String)
    (wavecalApply : EventTable → List ℚ × List ℚ) : EventTable :=
  if obstype = "SPECTROSCOPIC" ∧ wavecorr = "PERFORM" then
    let r := wavecalApply et
    { et with xfull := r.1, yfull := r.2 }
  else et

/-- `doDqicorr` (lines 1243-1322): for DQICORR PERFORM, update the DQ
column from the bad-pixel table regions (`ccos.applydq`, from xcorr,
ycorr, dq); the returned 2-D data quality image is built from header
geometry and the bad-pixel table. -/
def doDqicorr (et : EventTable) (dqicorr : String)
    (applyDq : List ℚ → List ℚ → List ℕ → List ℕ)
    (dqArray : Option (ℕ → ℕ → ℕ)) :
    EventTable × Option (ℕ → ℕ → ℕ) :=
  if dqicorr = "PERFORM" then
    ({ et with dq := applyDq et.xcorr et.ycorr et.dq }, dqArray)
  else (et, dqArray)

/-- The data portion of one output image file: the science plane, the
error plane and the data-quality plane, each `none` for a null HDU.  The
error plane is stored as the *square* of the source's error array (the
source takes a square root, which is not rational; squaring is invertible
on the nonnegative errors, and the source's zero test on the error plane
becomes a zero test here). -/
structure ImageFile where
  sci : Option (ℕ → ℕ → ℚ)
  err : Option (ℕ → ℕ → ℚ)
  dq : Option (ℕ → ℕ → ℕ)

/-- `makeImage` (lines 2328-2349): write the image HDUs from the given
data arrays (`None` data gives a null HDU). -/
def makeImage (sci err : Option (ℕ → ℕ → ℚ)) (dqa : Option (ℕ → ℕ → ℕ)) :
    ImageFile :=
  ⟨sci, err, dqa⟩

/-- `writeNull` (lines 2221-2245): write the counts and flat-fielded
output files with null data portions. -/
def writeNull : ImageFile × ImageFile :=
  (makeImage none none none, makeImage none none none)

/-- The `serious_dq_flags` global: OR of the flag bits enabled by the
performed screening stages (burst, bad time, pulse height). -/
def seriousDQflags (segment brstcorr badtcorr detector phacorr : String) :
    ℕ :=
  (if segment.take 3 = "FUV" ∧ brstcorr = "PERFORM" then DQ_BURST else 0) |||
  (if badtcorr = "PERFORM" then DQ_BAD_TIME else 0) |||
  (if detector = "FUV" ∧ phacorr = "PERFORM" then DQ_PH_LOW ||| DQ_PH_HIGH
    else 0)

/-- Modelled from the spec: `ccos.binevents` (C extension, not under
`src/`): accumulate a 2-D histogram over the event pixel coordinates,
adding each event's weight to the pixel containing it (x shifted by
`x_offset`); events carrying any of the serious DQ flags are excluded.
Float coordinates are binned by the containing integer pixel. -/
def binevents (x y wgt : List ℚ) (dqcol : List ℕ) (x_offset : ℕ)
    (serious : ℕ) : ℕ → ℕ → ℚ :=
  fun r c =>
    ((((x.zip y).zip (wgt.zip dqcol)).filter (fun e =>
      decide (⌊e.1.2⌋ = (r : ℤ) ∧ ⌊e.1.1⌋ + (x_offset : ℤ) = (c : ℤ)) &&
        (e.2.2 &&& serious == 0))).map (fun e => e.2.1)).sum

/-- `writeImages` (lines 2247-2326): bin the events to the count-rate
image `C/t` (unit weights) and the flat-fielded image `E/t` (epsilon
weights).  A nonpositive exposure time short-circuits to all-zero images.
Error planes are stored squared (see `ImageFile`): `errC_rate² = C/t²`,
with zero entries replaced by 1 before dividing, and
`errE_rate² = E_rate² / errC_rate² / t²`. -/
def writeImages (x y eps : List ℚ) (dqcol : List ℕ)
    (dq_array : Option (ℕ → ℕ → ℕ)) (x_offset : ℕ) (exptime : ℚ)
    (serious : ℕ) : ImageFile × ImageFile :=
  if exptime ≤ 0 then
    (makeImage (some fun _ _ => 0) (some fun _ _ => 0) dq_array,
     makeImage (some fun _ _ => 0) (some fun _ _ => 0) dq_array)
  else
    let C := binevents x y (List.replicate x.length 1) dqcol x_offset serious
    let E := binevents x y eps dqcol x_offset serious
    let errCsq := fun r c : ℕ => C r c / exptime ^ 2
    let errCsqSafe := fun r c : ℕ => if C r c = 0 then 1 else errCsq r c
    (makeImage (some (fun r c => C r c / exptime)) (some errCsq) dq_array,
     makeImage (some (fun r c => E r c / exptime))
       (some (fun r c => (E r c / exptime) ^ 2 / errCsqSafe r c / exptime ^ 2))
       dq_array)

/-- `timetagBasicCalibration` (lines 36-194): the basic processing for
time-tag data.  If the events table has no rows, write null output images
and return 1; otherwise run the calibration stages in order on the events
table, write the two output images, and return 0.  The value is the return
code, the counts image, the flat-fielded image, and the final events
table.  Header-only stages (`doPhotcorr`, `updateGlobrate`, `initHelcorr`,
`doStatflag`, keyword updates) touch no column and are omitted; for
TIME-TAG the exposure time used downstream is the one recomputed from the
good time intervals. -/
def timetagBasicCalibration (info : CalInfo) (sw : CalSwitches)
    (rf : RefData) (et : EventTable) :
    ℕ × ImageFile × ImageFile × EventTable :=
  if et.time.length = 0 then
    (1, writeNull.1, writeNull.2, et)
  else
    let active1 := setActiveArea et info.detector rf.brf
    let b := doBurstcorr et info.segment sw.brstcorr rf.burstFilter
    let bt := doBadtcorr b.1 sw.badtcorr rf.badtTable info.expstart
    let ge := recomputeExptime rf.gtiTable b.2 bt.2 bt.1.time
    let exptime1 := if info.obsmode = "TIME-TAG" then ge.2 else info.exptime
    let e3 := doPhacorr bt.1 info.detector sw.phacorr info.obsmode
      rf.pha_low rf.pha_high active1
    let e4 := doRandcorr e3 info.detector sw.randcorr active1 rf.rn1 rf.rn2
    let st := initTempcorr e4 info.detector sw.tempcorr sw.deadcorr
      rf.stim1_ref rf.stim2_ref rf.stim_xwidth rf.stim_ywidth info.obsmode
      rf.brf_timestep exptime1 info.stimrate
    let e5 := stageTempcorr e4 st.1 info.detector sw.tempcorr
    let e6 := doGeocorr e5 info.detector sw.geocorr rf.geoCorrect
    let e7 := copyColumns e6
    let e8 := doDoppcorr e7 info.obsmode sw.doppcorr rf.doppRegion
      rf.dopplerShift
    let e9 := doDeadcorr e8 sw.deadcorr info.obsmode info.detector
      rf.deadtab info.dec_countrate info.subarray info.nsubarry
      rf.dead_timestep rf.accumDead
    let e10 := doFlatcorr e9 sw.flatcorr rf.flatField
    let e11 := doWavecal e10 info.obstype sw.wavecorr rf.wavecalApply
    let dqi := doDqicorr e11 sw.dqicorr rf.applyDq rf.dqArray
    let imgs := writeImages dqi.1.xfull dqi.1.yfull dqi.1.epsilon dqi.1.dq
      dqi.2 info.x_offset exptime1
      (seriousDQflags info.segment sw.brstcorr sw.badtcorr info.detector
        sw.phacorr)
    (0, imgs.1, imgs.2, dqi.1)

theorem doBurstcorr_time (et : EventTable) (segment brstcorr : String)
    (f : List ℚ → List ℚ → List ℕ → List ℕ × List (ℚ × ℚ)) :
    (doBurstcorr et segment brstcorr f).1.time = et.time := by
  unfold doBurstcorr
  split <;> rfl

theorem doBadtcorr_time (et : EventTable) (badtcorr : String)
    (tbl : List (ℚ × ℚ)) (expstart : ℚ) :
    (doBadtcorr et badtcorr tbl expstart).1.time = et.time := by
  unfold doBadtcorr
  split <;> rfl

theorem doPhacorr_time (et : EventTable) (detector phacorr obsmode : String)
    (low high : ℕ) (active : List Bool) :
    (doPhacorr et detector phacorr obsmode low high active).time
      = et.time := by
  unfold doPhacorr
  split <;> rfl

theorem doRandcorr_time (et : EventTable) (detector randcorr : String)
    (active : List Bool) (rn1 rn2 : List ℚ) :
    (doRandcorr et detector randcorr active rn1 rn2).time = et.time := by
  unfold doRandcorr
  split <;> rfl

theorem stageTempcorr_time (et : EventTable) (sp : StimParam)
    (detector tempcorr : String) :
    (stageTempcorr et sp detector tempcorr).time = et.time := rfl

theorem doGeocorr_time (et : EventTable) (detector geocorr : String)
    (g : List ℚ → List ℚ → List ℚ × List ℚ) :
    (doGeocorr et detector geocorr g).time = et.time := by
  unfold doGeocorr
  split <;> rfl

theorem copyColumns_time (et : EventTable) :
    (copyColumns et).time = et.time := rfl

theorem doDoppcorr_time (et : EventTable) (obsmode doppcorr : String)
    (region : List ℚ → List Bool) (shift : ℚ → ℚ → ℚ) :
    (doDoppcorr et obsmode doppcorr region shift).time = et.time := by
  unfold doDoppcorr
  split
  · rfl
  · split <;> rfl

theorem doDeadcorr_time (et : EventTable) (deadcorr obsmode detector : String)
    (tbl : List (ℚ × ℚ)) (dec_countrate : ℚ) (subarray : Bool)
    (nsubarry : ℕ) (dt : ℚ) (accumDead : List ℚ → List ℚ) :
    (doDeadcorr et deadcorr obsmode detector tbl dec_countrate subarray
      nsubarry dt accumDead).time = et.time := by
  unfold doDeadcorr
  split
  · split <;> rfl
  · rfl

theorem doFlatcorr_time (et : EventTable) (flatcorr : String)
    (flat : ℚ → ℚ → ℚ) :
    (doFlatcorr et flatcorr flat).time = et.time := by
  unfold doFlatcorr
  split <;> rfl

theorem doWavecal_time (et : EventTable) (obstype wavecorr : String)
    (w : EventTable → List ℚ × List ℚ) :
    (doWavecal et obstype wavecorr w).time = et.time := by
  unfold doWavecal
  split <;> rfl

theorem doDqicorr_time (et : EventTable) (dqicorr : String)
    (applyDq : List ℚ → List ℚ → List ℕ → List ℕ)
    (dqArray : Option (ℕ → ℕ → ℕ)) :
    (doDqicorr et dqicorr applyDq dqArray).1.time = et.time := by
  unfold doDqicorr
  split <;> rfl

/-- **C9.** The event time column is identical before and after the full
time-tag calibration run: whatever the switches, the reference data and
the column transformations supplied for the externally implemented stages,
every stage returns the time column it was given — no stage reorders the
event rows or writes to the time column after ingestion. -/
theorem pipeline_time_column_readonly (info : CalInfo) (sw : CalSwitches)
    (rf : RefData) (et : EventTable) :
    (timetagBasicCalibration info sw rf et).2.2.2.time = et.time := by
  unfold timetagBasicCalibration
  by_cases h : et.time.length = 0
  · rw [if_pos h]
  · rw [if_neg h]
    dsimp only
    rw [doDqicorr_time, doWavecal_time, doFlatcorr_time, doDeadcorr_time,
      doDoppcorr_time, copyColumns_time, doGeocorr_time, stageTempcorr_time,
      doRandcorr_time, doPhacorr_time, doBadtcorr_time, doBurstcorr_time]

/-- **C7.** An empty events table (zero rows) short-circuits to the
degenerate no-data path: the top-level calibration function returns 1 and
both output image files are written with null data portions, with no
error; a nonempty table runs the normal path and returns 0. -/
theorem empty_table_null_outputs (info : CalInfo) (sw : CalSwitches)
    (rf : RefData) (et : EventTable) :
    ((timetagBasicCalibration info sw rf et).1
        = if et.time.length = 0 then 1 else 0) ∧
    (et.time.length = 0 →
      (timetagBasicCalibration info sw rf et).2.1
          = makeImage none none none ∧
      (timetagBasicCalibration info sw rf et).2.2.1
          = makeImage none none none) := by
  constructor
  · unfold timetagBasicCalibration
    by_cases h : et.time.length = 0
    · rw [if_pos h, if_pos h]
    · rw [if_neg h, if_neg h]
  · intro h
    unfold timetagBasicCalibration
    rw [if_pos h]
    exact ⟨rfl, rfl⟩

/-- A table with no rows. -/
def emptyEvents : EventTable := ⟨[], [], [], [], [], [], [], [], []⟩

/-- A concrete header dictionary. -/
def trivInfo : CalInfo :=
  { detector := "FUV", segment := "FUVA", obsmode := "TIME-TAG",
    obstype := "IMAGING", expstart := 0, exptime := 0, stimrate := 0,
    dec_countrate := 0, subarray := false, nsubarry := 0, x_offset := 0 }

/-- A concrete switch dictionary (everything OMIT). -/
def trivSwitches : CalSwitches :=
  { brstcorr := "OMIT", badtcorr := "OMIT", phacorr := "OMIT",
    randcorr := "OMIT", tempcorr := "OMIT", geocorr := "OMIT",
    doppcorr := "OMIT", deadcorr := "OMIT", flatcorr := "OMIT",
    wavecorr := "OMIT", dqicorr := "OMIT" }

/-- Concrete reference data (identity column transformations). -/
def trivRefs : RefData :=
  { brf := (0, 1023, 0, 16383), brf_timestep := 100,
    stim1_ref := (100, 100), stim2_ref := (900, 900),
    stim_xwidth := 5, stim_ywidth := 5, pha_low := 2, pha_high := 30,
    badtTable := [], deadtab := [((0 : ℚ), 1)], dead_timestep := 10,
    gtiTable := [], rn1 := [], rn2 := [],
    burstFilter := fun _ _ d => (d, []),
    geoCorrect := fun x y => (x, y),
    doppRegion := fun l => List.replicate l.length false,
    dopplerShift := fun _ x => x,
    flatField := fun _ _ => 1,
    wavecalApply := fun et => (et.xfull, et.yfull),
    applyDq := fun _ _ d => d,
    dqArray := none,
    accumDead := fun e => e }

/-- Witness for the empty-table claim at a concrete empty table. -/
theorem empty_table_null_outputs_witness :
    (timetagBasicCalibration trivInfo trivSwitches trivRefs emptyEvents).1
        = 1 ∧
    (timetagBasicCalibration trivInfo trivSwitches trivRefs
        emptyEvents).2.1 = makeImage none none none ∧
    (timetagBasicCalibration trivInfo trivSwitches trivRefs
        emptyEvents).2.2.1 = makeImage none none none := by
  have h := empty_table_null_outputs trivInfo trivSwitches trivRefs
    emptyEvents
  refine ⟨?_, h.2 rfl⟩
  rw [h.1]
  rfl

end Calcos
